import Mathlib

/-!
# cameraapp-kotlin: `native-lib.cpp`

A shallow embedding of `app/src/main/cpp/native-lib.cpp` (the YUV to RGBA frame
processor, the trilinear LUT interpolator and the filter registry) and theorems about
it.

Modelling conventions

* C `float` values are embedded as exact rationals (`ℚ`): binary32 rounding error is
  not part of the model; `std::fmax`, `std::fmin`, `std::round` and the `(int)` cast
  are the usual order / rounding functions on `ℚ`.
* `jint` / `int` values are 32-bit: every `int` computation of `processFrame` is checked
  against the range of `int`.  Signed overflow is undefined behaviour in C++; a call in
  which it occurs ends in `FrameResult.undefined` and nothing more is said about it.
* A pointer to input data is embedded as the view of memory it gives: a function from
  offsets to the values stored there.  The code performs no bounds checks on the planes
  and the table, so neither does the view; the ranges of those offsets are the subject of
  separate theorems.  Stores into the output buffer are checked against its length.
* The process-wide variables `gCurrentLUT` and `gFilterMap` are passed explicitly.
-/

namespace NativeLib

/-! ## Constants, types and global state (lines 9-37) -/

/-- The macro `CLAMP(x, min_val, max_val)`, defined as
`std::fmax(min_val, std::fmin(max_val, x))` (lines 12-13). -/
def CLAMP (x min_val max_val : ℚ) : ℚ := max min_val (min max_val x)

/-- The constant `static const int LUT_DIM = 33;` (line 31). -/
def LUT_DIM : Int := 33

/-- The pointee of a `LutDataPointer`, a `const float [LUT_DIM][LUT_DIM][LUT_DIM][3]`,
as the view `t z y x i` of the memory read by `(*gCurrentLUT)[z][y][x][i]`. -/
abbrev LutData := Int → Int → Int → Nat → ℚ

/-- The type `LutDataPointer = const float (*)[LUT_DIM][LUT_DIM][LUT_DIM][3]` (line 33);
`none` is `nullptr`.  The tables are constant, so a non-null pointer is identified with
the table it points to. -/
abbrev LutDataPointer := Option LutData

/-- The C cast `(int)f` of a float: truncation toward zero. -/
def truncToInt (f : ℚ) : Int := if 0 ≤ f then ⌊f⌋ else ⌈f⌉

/-- The function `std::round`: nearest integer, halfway cases away from zero. -/
def stdRound (f : ℚ) : Int := if 0 ≤ f then ⌊f + 1 / 2⌋ else ⌈f - 1 / 2⌉

/-! ## Trilinear interpolation (lines 43-74) -/

/-- The locals of `apply_lut` computed on lines 49-58: lower grid indices `x y z`,
interpolation weights `x_d y_d z_d` and upper grid indices `x1 y1 z1`. -/
structure LutCoords where
  x : Int
  y : Int
  z : Int
  x_d : ℚ
  y_d : ℚ
  z_d : ℚ
  x1 : Int
  y1 : Int
  z1 : Int

/-- Lines 49-58 of `apply_lut`. -/
def lutCoords (r_in g_in b_in : ℚ) : LutCoords :=
  let r_coord : ℚ := r_in * ((LUT_DIM - 1 : Int) : ℚ)
  let g_coord : ℚ := g_in * ((LUT_DIM - 1 : Int) : ℚ)
  let b_coord : ℚ := b_in * ((LUT_DIM - 1 : Int) : ℚ)
  let x : Int := truncToInt r_coord
  let y : Int := truncToInt g_coord
  let z : Int := truncToInt b_coord
  { x := x, y := y, z := z,
    x_d := r_coord - (x : ℚ), y_d := g_coord - (y : ℚ), z_d := b_coord - (z : ℚ),
    x1 := min (x + 1) (LUT_DIM - 1),
    y1 := min (y + 1) (LUT_DIM - 1),
    z1 := min (z + 1) (LUT_DIM - 1) }

/-- Lines 62-70 of `apply_lut`: the value `c` of channel `i` before the final clamp. -/
def lutBlend (lut : LutData) (k : LutCoords) (i : Nat) : ℚ :=
  let c00 := lut k.z k.y k.x i * (1 - k.x_d) + lut k.z k.y k.x1 i * k.x_d
  let c10 := lut k.z k.y1 k.x i * (1 - k.x_d) + lut k.z k.y1 k.x1 i * k.x_d
  let c01 := lut k.z1 k.y k.x i * (1 - k.x_d) + lut k.z1 k.y k.x1 i * k.x_d
  let c11 := lut k.z1 k.y1 k.x i * (1 - k.x_d) + lut k.z1 k.y1 k.x1 i * k.x_d
  let c0 := c00 * (1 - k.y_d) + c10 * k.y_d
  let c1 := c01 * (1 - k.y_d) + c11 * k.y_d
  c0 * (1 - k.z_d) + c1 * k.z_d

/-- The function `apply_lut`; the result is the array `r_out[0..2]`. -/
def apply_lut (gCurrentLUT : LutDataPointer) (r_in g_in b_in : ℚ) : ℚ × ℚ × ℚ :=
  match gCurrentLUT with
  | none => (r_in, g_in, b_in)
  | some lut =>
    let k := lutCoords r_in g_in b_in
    (CLAMP (lutBlend lut k 0) 0 1, CLAMP (lutBlend lut k 1) 0 1, CLAMP (lutBlend lut k 2) 0 1)

/-! ## Frame processing (lines 81-158) -/

/-- The memory seen through a `uint8_t*` obtained from `GetDirectBufferAddress`: the
value stored at each offset from the pointer. -/
abbrev Plane := Int → Nat

/-- The part of the JNI environment that `processFrame` depends on besides its
arguments: whether `env->NewByteArray(n)` yields an array (`true`) or `nullptr`. -/
structure JNIEnv where
  NewByteArray : Int → Bool

/-- How a call of `processFrame` ends: it returns `nullptr`; it returns a `jbyteArray`
(the bytes as unsigned values, `none` for a byte of `rgba_out` that was never written);
`new uint8_t[output_size]` throws because `output_size` is negative; or the execution
has undefined behaviour, because an `int` computation overflows or a store falls outside
`rgba_out`, and nothing is said about what happens then. -/
inductive FrameResult where
  | null : FrameResult
  | array (bytes : List (Option Nat)) : FrameResult
  | bad_array_new_length : FrameResult
  | undefined : FrameResult

/-- The value of an `int` expression whose mathematical value is `n`: `n` itself when it
is representable in 32 bits, no value (signed overflow) otherwise. -/
def jint (n : Int) : Option Int :=
  if -2147483648 ≤ n ∧ n ≤ 2147483647 then some n else none

/-- The conversion `static_cast<uint8_t>(n)` of an integral value. -/
def toUint8 (n : Int) : Nat := (n % 256).toNat

/-- Lines 100-101: `num_pixels = width * height` and `output_size = num_pixels * 4`. -/
def output_size (width height : Int) : Option Int := do
  let num_pixels ← jint (width * height)
  jint (num_pixels * 4)

/-- Line 109: `int y_index = j * strideY + i;` -/
def y_index (j i strideY : Int) : Option Int := do
  let product ← jint (j * strideY)
  jint (product + i)

/-- Lines 110-114: `uv_x`, `uv_y` and `uv_index` (C division truncates). -/
def uv_index (j i strideUV pixelStrideUV : Int) : Option Int := do
  let uv_x := Int.tdiv i 2
  let uv_y := Int.tdiv j 2
  let rowOffset ← jint (uv_y * strideUV)
  let columnOffset ← jint (uv_x * pixelStrideUV)
  jint (rowOffset + columnOffset)

/-- Line 140: `int output_index = (j * width + i) * 4;` -/
def output_index (j width i : Int) : Option Int := do
  let product ← jint (j * width)
  let pixel ← jint (product + i)
  jint (pixel * 4)

/-- Lines 120-132: from the samples `Y U V` to `(r_norm, g_norm, b_norm)`. -/
def normalizedRGB (Y U V : ℚ) : ℚ × ℚ × ℚ :=
  let C := Y - 16
  let D := U - 128
  let E := V - 128
  let r_val := (298 * C + 409 * E + 128) / 256
  let g_val := (298 * C - 100 * D - 208 * E + 128) / 256
  let b_val := (298 * C + 516 * D + 128) / 256
  (CLAMP (r_val / 255) 0 1, CLAMP (g_val / 255) 0 1, CLAMP (b_val / 255) 0 1)

/-- Lines 116-134: `filtered_rgb` for the samples read at the offsets `y_index` and
`uv_index`. -/
def filteredRGB (gCurrentLUT : LutDataPointer) (y_ptr u_ptr v_ptr : Plane)
    (y_index uv_index : Int) : ℚ × ℚ × ℚ :=
  let Y : ℚ := ((y_ptr y_index % 256 : Nat) : ℚ)
  let U : ℚ := ((u_ptr uv_index % 256 : Nat) : ℚ)
  let V : ℚ := ((v_ptr uv_index % 256 : Nat) : ℚ)
  let n := normalizedRGB Y U V
  apply_lut gCurrentLUT n.1 n.2.1 n.2.2

/-- Lines 136-138: the values `std::round(filtered_rgb[k] * 255.0f)` before the cast. -/
def roundedRGB (filtered_rgb : ℚ × ℚ × ℚ) : Int × Int × Int :=
  (stdRound (filtered_rgb.1 * 255), stdRound (filtered_rgb.2.1 * 255),
    stdRound (filtered_rgb.2.2 * 255))

/-- Lines 116-138: the bytes `R G B` for the samples read at the offsets `y_index` and
`uv_index`. -/
def pixelRGB (gCurrentLUT : LutDataPointer) (y_ptr u_ptr v_ptr : Plane)
    (y_index uv_index : Int) : Nat × Nat × Nat :=
  let q := roundedRGB (filteredRGB gCurrentLUT y_ptr u_ptr v_ptr y_index uv_index)
  (toUint8 q.1, toUint8 q.2.1, toUint8 q.2.2)

/-- One store `rgba_out[index] = value`: defined only when `index` is a position of
`rgba_out`. -/
def storeByte (rgba_out : List (Option Nat)) (index : Int) (value : Nat) :
    Option (List (Option Nat)) :=
  if 0 ≤ index ∧ index < (rgba_out.length : Int) then
    some (rgba_out.set index.toNat (some value))
  else none

/-- Lines 141-144: the four stores into `rgba_out` at `output_index + 0 .. 3`. -/
def storePixel (rgba_out : List (Option Nat)) (output_index : Int) (p : Nat × Nat × Nat) :
    Option (List (Option Nat)) := do
  let index0 ← jint (output_index + 0)
  let out ← storeByte rgba_out index0 p.1
  let index1 ← jint (output_index + 1)
  let out ← storeByte out index1 p.2.1
  let index2 ← jint (output_index + 2)
  let out ← storeByte out index2 p.2.2
  let index3 ← jint (output_index + 3)
  storeByte out index3 255

/-- Lines 109-144: the body of the inner loop for the pixel in row `j`, column `i`. -/
def loopBody (gCurrentLUT : LutDataPointer) (y_ptr u_ptr v_ptr : Plane)
    (width strideY strideUV pixelStrideUV j i : Int) (rgba_out : List (Option Nat)) :
    Option (List (Option Nat)) := do
  let yIndex ← y_index j i strideY
  let uvIndex ← uv_index j i strideUV pixelStrideUV
  let p := pixelRGB gCurrentLUT y_ptr u_ptr v_ptr yIndex uvIndex
  let outputIndex ← output_index j width i
  storePixel rgba_out outputIndex p

/-- Lines 108-145: the inner loop `for (int i = 0; i < width; ++i)` of row `j`. -/
def rowLoop (gCurrentLUT : LutDataPointer) (y_ptr u_ptr v_ptr : Plane)
    (width strideY strideUV pixelStrideUV j : Int) (rgba_out : List (Option Nat)) :
    Option (List (Option Nat)) :=
  (List.range width.toNat).foldlM
    (fun (out : List (Option Nat)) (i : Nat) =>
      loopBody gCurrentLUT y_ptr u_ptr v_ptr width strideY strideUV pixelStrideUV j (i : Int)
        out)
    rgba_out

/-- Lines 107-146: the outer loop `for (int j = 0; j < height; ++j)`. -/
def frameLoop (gCurrentLUT : LutDataPointer) (y_ptr u_ptr v_ptr : Plane)
    (width height strideY strideUV pixelStrideUV : Int) (rgba_out : List (Option Nat)) :
    Option (List (Option Nat)) :=
  (List.range height.toNat).foldlM
    (fun (out : List (Option Nat)) (j : Nat) =>
      rowLoop gCurrentLUT y_ptr u_ptr v_ptr width strideY strideUV pixelStrideUV (j : Int) out)
    rgba_out

/-- The function `Java_com_nmerza_cameraapp_NativeFilter_processFrame`.  The three
buffer arguments are given by what `GetDirectBufferAddress` returns for them. -/
def processFrame (env : JNIEnv) (gCurrentLUT : LutDataPointer)
    (yBuffer uBuffer vBuffer : Option Plane)
    (width height strideY strideUV pixelStrideUV : Int) : FrameResult :=
  match yBuffer, uBuffer, vBuffer with
  | some y_ptr, some u_ptr, some v_ptr =>
    match output_size width height with
    | none => FrameResult.undefined
    | some outputSize =>
      if outputSize < 0 then FrameResult.bad_array_new_length
      else
        match frameLoop gCurrentLUT y_ptr u_ptr v_ptr width height strideY strideUV
            pixelStrideUV (List.replicate outputSize.toNat none) with
        | none => FrameResult.undefined
        | some rgba_out =>
          if env.NewByteArray outputSize then FrameResult.array rgba_out
          else FrameResult.null
  | _, _, _ => FrameResult.null

/-! ## Filter management (lines 161-219) -/

/-- The tables defined by the headers `filters/*.hpp` (lines 16-28), whose contents are
not part of the translation unit: they are a parameter of the embedding. -/
structure FilterHeaders where
  BlueArchitecture : LutData
  HardBoost : LutData
  LongBeachMorning : LutData
  LushGreen : LutData
  MagicHour : LutData
  NaturalBoost : LutData
  OrangeAndBlue : LutData
  SoftBlackAndWhite : LutData
  Waves : LutData
  BlueHour : LutData
  ColdChrome : LutData
  CrispAutumn : LutData
  DarkAndSomber : LutData

/-- A `std::map<std::string, LutDataPointer>` as an association list in which a key
occurs at most once when built with `FilterMap.assign`. -/
abbrev FilterMap := List (String × LutDataPointer)

/-- The keys of a map. -/
def FilterMap.keys (m : FilterMap) : List String := m.map Prod.fst

/-- The call `m.find(key)`: `none` stands for `m.end()`, `some p` for an iterator to an
entry whose `second` is `p`. -/
def FilterMap.find (m : FilterMap) (key : String) : Option LutDataPointer :=
  match m with
  | [] => none
  | e :: rest => if e.1 = key then some e.2 else FilterMap.find rest key

/-- The statement `m[key] = value;` (insert or overwrite). -/
def FilterMap.assign (m : FilterMap) (key : String) (value : LutDataPointer) : FilterMap :=
  (key, value) :: m.filter (fun e => decide (e.1 ≠ key))

/-- The process-wide variables of lines 36-37. -/
structure Globals where
  gCurrentLUT : LutDataPointer
  gFilterMap : FilterMap

/-- The values of the globals after static initialisation: `gCurrentLUT = nullptr` and an
empty `gFilterMap`. -/
def initialGlobals : Globals := { gCurrentLUT := none, gFilterMap := [] }

/-- The function `initialize_lut_map` (lines 165-182), as an update of `gFilterMap`. -/
def initialize_lut_map (h : FilterHeaders) (gFilterMap : FilterMap) : FilterMap :=
  let m := gFilterMap.assign "None" none
  let m := m.assign "Blue Architecture" (some h.BlueArchitecture)
  let m := m.assign "HardBoost" (some h.HardBoost)
  let m := m.assign "LongBeachMorning" (some h.LongBeachMorning)
  let m := m.assign "LushGreen" (some h.LushGreen)
  let m := m.assign "MagicHour" (some h.MagicHour)
  let m := m.assign "NaturalBoost" (some h.NaturalBoost)
  let m := m.assign "OrangeAndBlue" (some h.OrangeAndBlue)
  let m := m.assign "SoftBlackAndWhite" (some h.SoftBlackAndWhite)
  let m := m.assign "Waves" (some h.Waves)
  let m := m.assign "BlueHour" (some h.BlueHour)
  let m := m.assign "ColdChrome" (some h.ColdChrome)
  let m := m.assign "CrispAutumn" (some h.CrispAutumn)
  m.assign "DarkAndSomber" (some h.DarkAndSomber)

/-- The function `JNI_OnLoad` (lines 184-187), as an update of the globals. -/
def JNI_OnLoad (h : FilterHeaders) (g : Globals) : Globals :=
  { g with gFilterMap := initialize_lut_map h g.gFilterMap }

/-- The function `Java_com_nmerza_cameraapp_NativeFilter_setActiveFilter` (lines 189-209):
the returned `jboolean` and the globals after the call. -/
def setActiveFilter (g : Globals) (filterName : String) : Bool × Globals :=
  match g.gFilterMap.find filterName with
  | some second => (true, { g with gCurrentLUT := second })
  | none => (false, g)

/-- The function `Java_com_nmerza_cameraapp_NativeFilter_loadLut` (lines 211-219): the
returned `jboolean` and the globals after the call. -/
def loadLut (g : Globals) (_lutData : List Nat) (_size : Int) : Bool × Globals :=
  (true, g)

/-- The globals after a sequence of `setActiveFilter` calls, one per name, in order. -/
def activateAll (g : Globals) (names : List String) : Globals :=
  names.foldl (fun s filterName => (setActiveFilter s filterName).2) g

/-- The names registered by `initialize_lut_map`, in the order of lines 166-179. -/
def registeredNames : List String :=
  ["None", "Blue Architecture", "HardBoost", "LongBeachMorning", "LushGreen", "MagicHour",
    "NaturalBoost", "OrangeAndBlue", "SoftBlackAndWhite", "Waves", "BlueHour", "ColdChrome",
    "CrispAutumn", "DarkAndSomber"]

/-- The last name of a sequence that is a key of the map `m`, if there is one. -/
def lastRegistered (m : FilterMap) (names : List String) : Option String :=
  names.reverse.find? (fun filterName => (m.find filterName).isSome)

/-! ## Vocabulary of the statements -/

/-- Membership of a grid index in the index range `0..32` of a side-33 cube. -/
def inCube (n : Int) : Prop := 0 ≤ n ∧ n ≤ 32

/-- The byte that `storePixel` writes at `output_index + k` for the colour bytes `p`. -/
def channelByte (p : Nat × Nat × Nat) (k : Nat) : Nat :=
  if k = 0 then p.1 else if k = 1 then p.2.1 else if k = 2 then p.2.2 else 255

/-- Spec 4.1: `R = (298*C + 409*E + 128) / 256` with `C = Y - 16`, `E = V - 128`. -/
def specR (Y _U V : ℚ) : ℚ := (298 * (Y - 16) + 409 * (V - 128) + 128) / 256

/-- Spec 4.1: `G = (298*C - 100*D - 208*E + 128) / 256`. -/
def specG (Y U V : ℚ) : ℚ := (298 * (Y - 16) - 100 * (U - 128) - 208 * (V - 128) + 128) / 256

/-- Spec 4.1: `B = (298*C + 516*D + 128) / 256`. -/
def specB (Y U _V : ℚ) : ℚ := (298 * (Y - 16) + 516 * (U - 128) + 128) / 256

/-- Spec 4.1 and 4.3 step 5 with no table: `round(255 * clamp01(x / 255))`. -/
def specByte (x : ℚ) : Int := round (255 * max 0 (min 1 (x / 255)))

/-- Headers in which every table is the same `lut`; used to instantiate the registry. -/
def uniformHeaders (lut : LutData) : FilterHeaders :=
  { BlueArchitecture := lut, HardBoost := lut, LongBeachMorning := lut, LushGreen := lut,
    MagicHour := lut, NaturalBoost := lut, OrangeAndBlue := lut, SoftBlackAndWhite := lut,
    Waves := lut, BlueHour := lut, ColdChrome := lut, CrispAutumn := lut,
    DarkAndSomber := lut }

/-! ## Vocabulary of the statements about colour, interpolation and entry points -/

/-- Spec 8, round-trip luma property: the common value of the three normalized
channels of a gray pixel, `clamp01(((298*(Y-16) + 128)/256)/255)`. -/
def specGray (Y : ℚ) : ℚ := max 0 (min 1 ((298 * (Y - 16) + 128) / 256 / 255))

/-- The entry points of the library, with their arguments. -/
inductive NativeCall where
  | JNI_OnLoad (h : FilterHeaders) : NativeCall
  | processFrame (env : JNIEnv) (yBuffer uBuffer vBuffer : Option Plane)
      (width height strideY strideUV pixelStrideUV : Int) : NativeCall
  | setActiveFilter (filterName : String) : NativeCall
  | loadLut (lutData : List Nat) (size : Int) : NativeCall

/-- The globals after a call of an entry point.  `processFrame` only reads
`gCurrentLUT` (through `apply_lut`) and assigns no global. -/
def NativeCall.globalsAfter (g : Globals) : NativeCall → Globals
  | NativeCall.JNI_OnLoad h => NativeLib.JNI_OnLoad h g
  | NativeCall.processFrame _ _ _ _ _ _ _ _ _ => g
  | NativeCall.setActiveFilter filterName => (NativeLib.setActiveFilter g filterName).2
  | NativeCall.loadLut lutData size => (NativeLib.loadLut g lutData size).2

/-- Spec 4.2: each blend is `low*(1-fraction) + high*fraction`. -/
def lerp (low high fraction : ℚ) : ℚ := low * (1 - fraction) + high * fraction

/-- The three axes of the cube. -/
inductive Axis where
  | red : Axis
  | green : Axis
  | blue : Axis
  deriving DecidableEq

/-- The interpolation weight of an axis: `x_d` for red, `y_d` for green, `z_d` for blue. -/
def axisWeight (k : LutCoords) : Axis → ℚ
  | Axis.red => k.x_d
  | Axis.green => k.y_d
  | Axis.blue => k.z_d

/-- One of the eight cells around the input: for each axis `upper` tells whether the upper
or the lower grid index is taken; the table is addressed as `[blue][green][red][channel]`. -/
def cellAt (lut : LutData) (k : LutCoords) (i : Nat) (upper : Axis → Bool) : ℚ :=
  lut (if upper Axis.blue then k.z1 else k.z) (if upper Axis.green then k.y1 else k.y)
    (if upper Axis.red then k.x1 else k.x) i

/-- Trilinear interpolation of channel `i` collapsing the axis `a1` first (four edge
values), then `a2` (two face values), then `a3`. -/
def blendInOrder (lut : LutData) (k : LutCoords) (i : Nat) (a1 a2 a3 : Axis) : ℚ :=
  let cell := fun (b1 b2 b3 : Bool) =>
    cellAt lut k i (fun a => if a = a1 then b1 else if a = a2 then b2 else b3)
  let edge := fun (b2 b3 : Bool) =>
    lerp (cell false b2 b3) (cell true b2 b3) (axisWeight k a1)
  let face := fun (b3 : Bool) => lerp (edge false b3) (edge true b3) (axisWeight k a2)
  lerp (face false) (face true) (axisWeight k a3)

/-- The least of the eight cells that `lutBlend` reads for channel `i`. -/
def cellsMin (lut : LutData) (k : LutCoords) (i : Nat) : ℚ :=
  min (min (min (lut k.z k.y k.x i) (lut k.z k.y k.x1 i))
      (min (lut k.z k.y1 k.x i) (lut k.z k.y1 k.x1 i)))
    (min (min (lut k.z1 k.y k.x i) (lut k.z1 k.y k.x1 i))
      (min (lut k.z1 k.y1 k.x i) (lut k.z1 k.y1 k.x1 i)))

/-- The greatest of the eight cells that `lutBlend` reads for channel `i`. -/
def cellsMax (lut : LutData) (k : LutCoords) (i : Nat) : ℚ :=
  max (max (max (lut k.z k.y k.x i) (lut k.z k.y k.x1 i))
      (max (lut k.z k.y1 k.x i) (lut k.z k.y1 k.x1 i)))
    (max (max (lut k.z1 k.y k.x i) (lut k.z1 k.y k.x1 i))
      (max (lut k.z1 k.y1 k.x i) (lut k.z1 k.y1 k.x1 i)))

/-! ## The range of `int` and the stores as list updates -/

/-- Representability of `n` as a 32-bit `int` (`jint`). -/
def inInt32 (n : Int) : Prop := -2147483648 ≤ n ∧ n ≤ 2147483647

/-- The arguments of `processFrame` are `jint` values and no `int` computation of the call
overflows: the size `width*height*4` (with `width*height`) and, for every pixel of the
frame, the luma offset `j*strideY + i` and the chroma offset
`(j/2)*strideUV + (i/2)*pixelStrideUV` with their products are representable. -/
def FrameInRange (width height strideY strideUV pixelStrideUV : Int) : Prop :=
  inInt32 width ∧ inInt32 height ∧ inInt32 strideY ∧ inInt32 strideUV ∧
  inInt32 pixelStrideUV ∧
  inInt32 (width * height) ∧ inInt32 (width * height * 4) ∧
  ∀ i j : Int, 0 ≤ i ∧ i < width → 0 ≤ j ∧ j < height →
    inInt32 (j * strideY) ∧ inInt32 (j * strideY + i) ∧
    inInt32 (j / 2 * strideUV) ∧ inInt32 (i / 2 * pixelStrideUV) ∧
    inInt32 (j / 2 * strideUV + i / 2 * pixelStrideUV)

/-- The list after the four stores of pixel number `n` (positions `4n .. 4n+3`), when
these are positions of the list. -/
def writePixel (out : List (Option Nat)) (n : Nat) (p : Nat × Nat × Nat) :
    List (Option Nat) :=
  (((out.set (4 * n) (some p.1)).set (4 * n + 1) (some p.2.1)).set
    (4 * n + 2) (some p.2.2)).set (4 * n + 3) (some 255)

/-- The list after the stores of row `j` of a frame of width `W` whose pixel `(i, j)` has
the colour bytes `px j i`. -/
def rowWrites (px : Nat → Nat → Nat × Nat × Nat) (W j : Nat) (out : List (Option Nat)) :
    List (Option Nat) :=
  (List.range W).foldl
    (fun (o : List (Option Nat)) (i : Nat) => writePixel o (j * W + i) (px j i)) out

/-- The list after the stores of all `H` rows. -/
def frameWrites (px : Nat → Nat → Nat × Nat × Nat) (W H : Nat) (out : List (Option Nat)) :
    List (Option Nat) :=
  (List.range H).foldl (fun (o : List (Option Nat)) (j : Nat) => rowWrites px W j o) out

/-- The colour bytes that `processFrame` computes for the pixel in row `j`, column `i`,
from the samples at the offsets `j*strideY + i` and `(j/2)*strideUV + (i/2)*pixelStrideUV`. -/
def framePixel (gCurrentLUT : LutDataPointer) (y_ptr u_ptr v_ptr : Plane)
    (strideY strideUV pixelStrideUV : Int) (j i : Nat) : Nat × Nat × Nat :=
  pixelRGB gCurrentLUT y_ptr u_ptr v_ptr ((j : Int) * strideY + (i : Int))
    ((j : Int) / 2 * strideUV + (i : Int) / 2 * pixelStrideUV)

/-! ## Auxiliary facts -/

theorem CLAMP_unit_range (x : ℚ) : 0 ≤ CLAMP x 0 1 ∧ CLAMP x 0 1 ≤ 1 := by
  unfold CLAMP
  exact ⟨le_max_left _ _, max_le zero_le_one (min_le_left _ _)⟩

theorem truncToInt_of_nonneg {f : ℚ} (h : 0 ≤ f) : truncToInt f = ⌊f⌋ := by
  simp [truncToInt, h]

theorem truncToInt_scaled_range {c : ℚ} (h0 : 0 ≤ c) (h1 : c ≤ 1) :
    0 ≤ truncToInt (c * ((LUT_DIM - 1 : Int) : ℚ)) ∧
      truncToInt (c * ((LUT_DIM - 1 : Int) : ℚ)) ≤ 32 := by
  have hs : (0 : ℚ) ≤ c * ((LUT_DIM - 1 : Int) : ℚ) := by
    have : (0 : ℚ) ≤ ((LUT_DIM - 1 : Int) : ℚ) := by norm_num [LUT_DIM]
    exact mul_nonneg h0 this
  rw [truncToInt_of_nonneg hs]
  refine ⟨Int.floor_nonneg.mpr hs, ?_⟩
  have h32 : c * ((LUT_DIM - 1 : Int) : ℚ) ≤ ((32 : Int) : ℚ) := by
    norm_num [LUT_DIM]; linarith
  have := Int.floor_le (c * ((LUT_DIM - 1 : Int) : ℚ))
  exact_mod_cast le_trans this h32

theorem upper_index_range {n : Int} (h0 : 0 ≤ n) :
    0 ≤ min (n + 1) (LUT_DIM - 1) ∧ min (n + 1) (LUT_DIM - 1) ≤ 32 := by
  simp only [LUT_DIM]
  omega

/-! ## Checked `int` arithmetic -/

theorem jint_of_inInt32 {n : Int} (h : inInt32 n) : jint n = some n := by
  unfold inInt32 at h
  unfold jint
  rw [if_pos h]

theorem jint_eq_some {n m : Int} (h : jint n = some m) : m = n ∧ inInt32 n := by
  unfold jint at h
  by_cases hr : -2147483648 ≤ n ∧ n ≤ 2147483647
  · rw [if_pos hr] at h
    exact ⟨(Option.some.inj h).symm, hr⟩
  · rw [if_neg hr] at h
    exact absurd h (by simp)

theorem output_size_eq {width height : Int} (h1 : inInt32 (width * height))
    (h2 : inInt32 (width * height * 4)) :
    output_size width height = some (width * height * 4) := by
  simp [output_size, jint_of_inInt32 h1, jint_of_inInt32 h2]

theorem output_size_eq_some {width height n : Int} (h : output_size width height = some n) :
    n = width * height * 4 := by
  unfold output_size at h
  cases h1 : jint (width * height) with
  | none => simp [h1] at h
  | some a =>
    obtain ⟨ha, -⟩ := jint_eq_some h1
    simp only [h1, Option.bind_eq_bind, Option.some_bind] at h
    obtain ⟨hn, -⟩ := jint_eq_some h
    rw [hn, ha]

theorem y_index_eq {j i strideY : Int} (h1 : inInt32 (j * strideY))
    (h2 : inInt32 (j * strideY + i)) : y_index j i strideY = some (j * strideY + i) := by
  simp [y_index, jint_of_inInt32 h1, jint_of_inInt32 h2]

theorem uv_index_eq {j i strideUV pixelStrideUV : Int} (hj : 0 ≤ j) (hi : 0 ≤ i)
    (h1 : inInt32 (j / 2 * strideUV)) (h2 : inInt32 (i / 2 * pixelStrideUV))
    (h3 : inInt32 (j / 2 * strideUV + i / 2 * pixelStrideUV)) :
    uv_index j i strideUV pixelStrideUV = some (j / 2 * strideUV + i / 2 * pixelStrideUV) := by
  simp [uv_index, Int.tdiv_eq_ediv hj, Int.tdiv_eq_ediv hi, jint_of_inInt32 h1,
    jint_of_inInt32 h2, jint_of_inInt32 h3]

theorem output_index_eq {j width i : Int} (h1 : inInt32 (j * width))
    (h2 : inInt32 (j * width + i)) (h3 : inInt32 ((j * width + i) * 4)) :
    output_index j width i = some ((j * width + i) * 4) := by
  simp [output_index, jint_of_inInt32 h1, jint_of_inInt32 h2, jint_of_inInt32 h3]

/-! ## The stores as list updates -/

theorem writePixel_length (out : List (Option Nat)) (n : Nat) (p : Nat × Nat × Nat) :
    (writePixel out n p).length = out.length := by
  simp [writePixel]

theorem storeByte_eq (out : List (Option Nat)) (m : Nat) (value : Nat) (h : m < out.length) :
    storeByte out (m : Int) value = some (out.set m (some value)) := by
  unfold storeByte
  rw [if_pos ⟨Int.ofNat_nonneg m, by exact_mod_cast h⟩, Int.toNat_ofNat]

theorem storePixel_eq (out : List (Option Nat)) (n : Nat) (p : Nat × Nat × Nat)
    (hlen : 4 * n + 3 < out.length) (hr : inInt32 ((4 * n + 3 : Nat) : Int)) :
    storePixel out ((4 * n : Nat) : Int) p = some (writePixel out n p) := by
  have r0 : inInt32 (((4 * n : Nat) : Int) + 0) := by unfold inInt32 at *; omega
  have r1 : inInt32 (((4 * n : Nat) : Int) + 1) := by unfold inInt32 at *; omega
  have r2 : inInt32 (((4 * n : Nat) : Int) + 2) := by unfold inInt32 at *; omega
  have r3 : inInt32 (((4 * n : Nat) : Int) + 3) := by unfold inInt32 at *; omega
  have e0 : ((4 * n : Nat) : Int) + 0 = ((4 * n : Nat) : Int) := by omega
  have e1 : ((4 * n : Nat) : Int) + 1 = ((4 * n + 1 : Nat) : Int) := by omega
  have e2 : ((4 * n : Nat) : Int) + 2 = ((4 * n + 2 : Nat) : Int) := by omega
  have e3 : ((4 * n : Nat) : Int) + 3 = ((4 * n + 3 : Nat) : Int) := by omega
  unfold storePixel
  rw [jint_of_inInt32 r0, jint_of_inInt32 r1, jint_of_inInt32 r2, jint_of_inInt32 r3,
    e0, e1, e2, e3]
  simp only [Option.bind_eq_bind, Option.some_bind]
  rw [storeByte_eq out (4 * n) p.1 (by omega)]
  simp only [Option.some_bind]
  rw [storeByte_eq _ (4 * n + 1) p.2.1 (by rw [List.length_set]; omega)]
  simp only [Option.some_bind]
  rw [storeByte_eq _ (4 * n + 2) p.2.2 (by rw [List.length_set, List.length_set]; omega)]
  simp only [Option.some_bind]
  rw [storeByte_eq _ (4 * n + 3) 255
    (by rw [List.length_set, List.length_set, List.length_set]; omega)]
  rfl

theorem writePixel_getElem? (out : List (Option Nat)) (n : Nat) (p : Nat × Nat × Nat)
    (m : Nat) :
    (writePixel out n p)[m]? =
      if m / 4 = n ∧ m < out.length then some (some (channelByte p (m % 4))) else out[m]? := by
  simp only [writePixel, List.getElem?_set, List.length_set, channelByte]
  by_cases hlen : m < out.length
  · by_cases h3 : 4 * n + 3 = m
    · have q1 : m / 4 = n := by omega
      have q2 : m % 4 = 3 := by omega
      have q3 : 4 * n + 3 < out.length := by omega
      simp [h3, q1, q2, q3, hlen]
    · by_cases h2 : 4 * n + 2 = m
      · have q1 : m / 4 = n := by omega
        have q2 : m % 4 = 2 := by omega
        have q3 : 4 * n + 2 < out.length := by omega
        simp [h3, h2, q1, q2, q3, hlen]
      · by_cases h1 : 4 * n + 1 = m
        · have q1 : m / 4 = n := by omega
          have q2 : m % 4 = 1 := by omega
          have q3 : 4 * n + 1 < out.length := by omega
          simp [h3, h2, h1, q1, q2, q3, hlen]
        · by_cases h0 : 4 * n = m
          · have q1 : m / 4 = n := by omega
            have q2 : m % 4 = 0 := by omega
            have q3 : 4 * n < out.length := by omega
            simp [h3, h2, h1, h0, q1, q2, q3, hlen]
          · have q1 : ¬ m / 4 = n := by omega
            simp [h3, h2, h1, h0, q1]
  · have q : out[m]? = none := List.getElem?_eq_none (by omega)
    have q3 : ¬ (4 * n + 3 < out.length ∧ 4 * n + 3 = m) := by omega
    have q2 : ¬ (4 * n + 2 < out.length ∧ 4 * n + 2 = m) := by omega
    have q1 : ¬ (4 * n + 1 < out.length ∧ 4 * n + 1 = m) := by omega
    have q0 : ¬ (4 * n < out.length ∧ 4 * n = m) := by omega
    simp only [hlen, and_false, if_false, q]
    split_ifs <;> first | rfl | omega

theorem rowWrites_fold_length (px : Nat → Nat → Nat × Nat × Nat) (W j I : Nat)
    (out : List (Option Nat)) :
    ((List.range I).foldl
      (fun (o : List (Option Nat)) (i : Nat) => writePixel o (j * W + i) (px j i)) out).length
      = out.length := by
  induction I with
  | zero => simp
  | succ I ih => rw [List.range_succ, List.foldl_append]; simp [writePixel_length, ih]

theorem rowWrites_fold_getElem? (px : Nat → Nat → Nat × Nat × Nat) (W j I : Nat)
    (out : List (Option Nat)) (m : Nat) :
    ((List.range I).foldl
      (fun (o : List (Option Nat)) (i : Nat) => writePixel o (j * W + i) (px j i)) out)[m]? =
      if j * W ≤ m / 4 ∧ m / 4 < j * W + I ∧ m < out.length then
        some (some (channelByte (px j (m / 4 - j * W)) (m % 4)))
      else out[m]? := by
  induction I with
  | zero =>
    have h : ¬ (j * W ≤ m / 4 ∧ m / 4 < j * W + 0 ∧ m < out.length) := by omega
    simp only [List.range_zero, List.foldl_nil, h, if_false]
  | succ I ih =>
    rw [List.range_succ, List.foldl_append]
    simp only [List.foldl_cons, List.foldl_nil]
    rw [writePixel_getElem?, ih, rowWrites_fold_length]
    by_cases h1 : m / 4 = j * W + I
    · by_cases h2 : m < out.length
      · have e : m / 4 - j * W = I := by omega
        simp [h1, h2, e]
      · simp [h1, h2]
    · by_cases h3 : j * W ≤ m / 4 ∧ m / 4 < j * W + I ∧ m < out.length
      · have h4 : j * W ≤ m / 4 ∧ m / 4 < j * W + (I + 1) ∧ m < out.length := by omega
        simp [h1, h3, h4]
      · have h4 : ¬ (j * W ≤ m / 4 ∧ m / 4 < j * W + (I + 1) ∧ m < out.length) := by omega
        simp only [h1, false_and, if_false, h3, h4]

theorem rowWrites_length (px : Nat → Nat → Nat × Nat × Nat) (W j : Nat)
    (out : List (Option Nat)) : (rowWrites px W j out).length = out.length :=
  rowWrites_fold_length px W j W out

theorem rowWrites_getElem? (px : Nat → Nat → Nat × Nat × Nat) (W j : Nat)
    (out : List (Option Nat)) (m : Nat) :
    (rowWrites px W j out)[m]? =
      if j * W ≤ m / 4 ∧ m / 4 < j * W + W ∧ m < out.length then
        some (some (channelByte (px j (m / 4 - j * W)) (m % 4)))
      else out[m]? :=
  rowWrites_fold_getElem? px W j W out m

theorem frameWrites_fold_length (px : Nat → Nat → Nat × Nat × Nat) (W J : Nat)
    (out : List (Option Nat)) :
    ((List.range J).foldl
      (fun (o : List (Option Nat)) (j : Nat) => rowWrites px W j o) out).length
      = out.length := by
  induction J with
  | zero => simp
  | succ J ih => rw [List.range_succ, List.foldl_append]; simp [rowWrites_length, ih]

theorem frameWrites_fold_getElem? (px : Nat → Nat → Nat × Nat × Nat) (W J : Nat)
    (out : List (Option Nat)) (m : Nat) :
    ((List.range J).foldl
      (fun (o : List (Option Nat)) (j : Nat) => rowWrites px W j o) out)[m]? =
      if m / 4 < J * W ∧ m < out.length then
        some (some (channelByte (px (m / 4 / W) (m / 4 % W)) (m % 4)))
      else out[m]? := by
  induction J with
  | zero => simp
  | succ J ih =>
    rw [List.range_succ, List.foldl_append]
    simp only [List.foldl_cons, List.foldl_nil]
    rw [rowWrites_getElem?, ih, frameWrites_fold_length]
    have hmul : (J + 1) * W = J * W + W := by ring
    by_cases h1 : J * W ≤ m / 4 ∧ m / 4 < J * W + W ∧ m < out.length
    · have hd : m / 4 / W = J := Nat.div_eq_of_lt_le h1.1 (by rw [hmul]; exact h1.2.1)
      have hm : m / 4 % W = m / 4 - J * W := by
        have := Nat.div_add_mod (m / 4) W
        rw [hd, Nat.mul_comm] at this
        omega
      have h2 : m / 4 < (J + 1) * W ∧ m < out.length := by
        rw [hmul]; exact ⟨h1.2.1, h1.2.2⟩
      rw [if_pos h1, if_pos h2, hd, hm]
    · by_cases h3 : m / 4 < J * W ∧ m < out.length
      · have h2 : m / 4 < (J + 1) * W ∧ m < out.length := by rw [hmul]; omega
        rw [if_neg h1, if_pos h3, if_pos h2]
      · have h2 : ¬ (m / 4 < (J + 1) * W ∧ m < out.length) := by rw [hmul]; omega
        rw [if_neg h1, if_neg h3, if_neg h2]

theorem frameWrites_length (px : Nat → Nat → Nat × Nat × Nat) (W H : Nat)
    (out : List (Option Nat)) : (frameWrites px W H out).length = out.length :=
  frameWrites_fold_length px W H out

theorem frameWrites_getElem? (px : Nat → Nat → Nat × Nat × Nat) (W H : Nat)
    (out : List (Option Nat)) (m : Nat) :
    (frameWrites px W H out)[m]? =
      if m / 4 < H * W ∧ m < out.length then
        some (some (channelByte (px (m / 4 / W) (m / 4 % W)) (m % 4)))
      else out[m]? :=
  frameWrites_fold_getElem? px W H out m

theorem pixel_lt_frame {W H i j : Nat} (hi : i < W) (hj : j < H) : j * W + i < H * W := by
  have h1 : (j + 1) * W ≤ H * W := Nat.mul_le_mul_right W hj
  have h2 : (j + 1) * W = j * W + W := by ring
  omega

theorem toNat_size {width height : Int} (hw : 0 ≤ width) (hh : 0 ≤ height) :
    (width * height * 4).toNat = height.toNat * width.toNat * 4 := by
  obtain ⟨W, rfl⟩ := Int.eq_ofNat_of_zero_le hw
  obtain ⟨H, rfl⟩ := Int.eq_ofNat_of_zero_le hh
  have : ((W : Int) * (H : Int) * 4) = ((H * W * 4 : Nat) : Int) := by push_cast; ring
  rw [this]
  simp only [Int.toNat_ofNat]

/-- The byte of channel `k` of the pixel in row `j`, column `i` after all the stores,
when the list is large enough for the frame. -/
theorem frameWrites_pixel (px : Nat → Nat → Nat × Nat × Nat) (W H : Nat)
    (out : List (Option Nat)) (hlen : H * W * 4 ≤ out.length)
    (i j k : Nat) (hi : i < W) (hj : j < H) (hk : k < 4) :
    (frameWrites px W H out)[(j * W + i) * 4 + k]? =
      some (some (channelByte (px j i) k)) := by
  have hp := pixel_lt_frame hi hj
  have e4 : ((j * W + i) * 4 + k) / 4 = j * W + i := by omega
  have ek : ((j * W + i) * 4 + k) % 4 = k := by omega
  have ed : (j * W + i) / W = j :=
    Nat.div_eq_of_lt_le (Nat.le_add_right _ _) (by
      have : (j + 1) * W = j * W + W := by ring
      omega)
  have em : (j * W + i) % W = i := by
    rw [Nat.add_comm, Nat.add_mul_mod_self_right]; exact Nat.mod_eq_of_lt hi
  have hc : ((j * W + i) * 4 + k) / 4 < H * W ∧ (j * W + i) * 4 + k < out.length := by
    rw [e4]; exact ⟨hp, by omega⟩
  rw [frameWrites_getElem?, if_pos hc, e4, ek, ed, em]

/-! ## The loops of `processFrame` -/

theorem foldlM_range_some {σ : Type} (f : σ → Nat → Option σ) (g : σ → Nat → σ)
    (P : σ → Prop) (n : Nat)
    (hstep : ∀ s i, i < n → P s → f s i = some (g s i) ∧ P (g s i)) :
    ∀ init, P init →
      (List.range n).foldlM f init = some ((List.range n).foldl g init) ∧
        P ((List.range n).foldl g init) := by
  induction n with
  | zero => intro init h0; exact ⟨rfl, h0⟩
  | succ n ih =>
    intro init h0
    obtain ⟨e, hp⟩ := ih (fun s i hi hs => hstep s i (Nat.lt_succ_of_lt hi) hs) init h0
    obtain ⟨e2, hp2⟩ := hstep _ n (Nat.lt_succ_self n) hp
    rw [List.range_succ, List.foldlM_append, List.foldl_append, e]
    simp only [Option.bind_eq_bind, Option.some_bind, List.foldlM_cons, List.foldlM_nil,
      List.foldl_cons, List.foldl_nil, e2]
    exact ⟨rfl, hp2⟩

theorem foldlM_range_none {σ : Type} (f : σ → Nat → Option σ) (n k : Nat) (hk : k < n)
    (hfail : ∀ s, f s k = none) : ∀ init, (List.range n).foldlM f init = none := by
  induction n with
  | zero => omega
  | succ n ih =>
    intro init
    rw [List.range_succ, List.foldlM_append]
    by_cases h : k < n
    · rw [ih h init]; rfl
    · have hkn : k = n := by omega
      subst hkn
      cases (List.range k).foldlM f init with
      | none => rfl
      | some s => simp [hfail s]

theorem frame_size_cast {width height : Int} (hw : 0 < width) (hh : 0 < height) :
    ((height.toNat * width.toNat * 4 : Nat) : Int) = width * height * 4 := by
  have e1 : ((width.toNat : Nat) : Int) = width := Int.toNat_of_nonneg hw.le
  have e2 : ((height.toNat : Nat) : Int) = height := Int.toNat_of_nonneg hh.le
  push_cast
  rw [e1, e2]
  ring

theorem loopBody_eq (gCurrentLUT : LutDataPointer) (y_ptr u_ptr v_ptr : Plane)
    (width height strideY strideUV pixelStrideUV : Int)
    (hr : FrameInRange width height strideY strideUV pixelStrideUV)
    (i j : Nat) (hi : i < width.toNat) (hj : j < height.toNat) (out : List (Option Nat))
    (hlen : height.toNat * width.toNat * 4 ≤ out.length) :
    loopBody gCurrentLUT y_ptr u_ptr v_ptr width strideY strideUV pixelStrideUV (j : Int)
        (i : Int) out =
      some (writePixel out (j * width.toNat + i)
        (framePixel gCurrentLUT y_ptr u_ptr v_ptr strideY strideUV pixelStrideUV j i)) := by
  obtain ⟨-, -, -, -, -, -, hsize, hpix⟩ := hr
  have hw : 0 < width := by omega
  have hh : 0 < height := by omega
  have e1 : ((width.toNat : Nat) : Int) = width := Int.toNat_of_nonneg hw.le
  obtain ⟨a1, a2, a3, a4, a5⟩ := hpix (i : Int) (j : Int) ⟨by omega, by omega⟩ ⟨by omega, by omega⟩
  have hp := pixel_lt_frame hi hj
  have hcast := frame_size_cast hw hh
  have hn : (j : Int) * width + (i : Int) = ((j * width.toNat + i : Nat) : Int) := by
    push_cast; rw [e1]
  have hjw : (j : Int) * width = ((j * width.toNat : Nat) : Int) := by
    push_cast; rw [e1]
  have hn4 : ((j : Int) * width + (i : Int)) * 4 = ((4 * (j * width.toNat + i) : Nat) : Int) := by
    rw [hn]; push_cast; ring
  have hmax : ((height.toNat * width.toNat * 4 : Nat) : Int) ≤ 2147483647 := by
    rw [hcast]; exact hsize.2
  have b1 : inInt32 ((j : Int) * width) := by rw [hjw]; unfold inInt32; omega
  have b2 : inInt32 ((j : Int) * width + (i : Int)) := by rw [hn]; unfold inInt32; omega
  have b3 : inInt32 (((j : Int) * width + (i : Int)) * 4) := by
    rw [hn4]; unfold inInt32; omega
  have b4 : inInt32 ((4 * (j * width.toNat + i) + 3 : Nat) : Int) := by
    unfold inInt32; omega
  unfold loopBody
  rw [y_index_eq a1 a2, uv_index_eq (by omega) (by omega) a3 a4 a5, output_index_eq b1 b2 b3]
  simp only [Option.bind_eq_bind, Option.some_bind]
  rw [hn4, storePixel_eq out _ _ (by omega) b4]
  rfl

theorem rowLoop_eq (gCurrentLUT : LutDataPointer) (y_ptr u_ptr v_ptr : Plane)
    (width height strideY strideUV pixelStrideUV : Int)
    (hr : FrameInRange width height strideY strideUV pixelStrideUV)
    (j : Nat) (hj : j < height.toNat) (out : List (Option Nat))
    (hlen : height.toNat * width.toNat * 4 ≤ out.length) :
    rowLoop gCurrentLUT y_ptr u_ptr v_ptr width strideY strideUV pixelStrideUV (j : Int) out =
      some (rowWrites (framePixel gCurrentLUT y_ptr u_ptr v_ptr strideY strideUV pixelStrideUV)
        width.toNat j out) := by
  have h := foldlM_range_some
    (fun (o : List (Option Nat)) (i : Nat) =>
      loopBody gCurrentLUT y_ptr u_ptr v_ptr width strideY strideUV pixelStrideUV (j : Int)
        (i : Int) o)
    (fun (o : List (Option Nat)) (i : Nat) => writePixel o (j * width.toNat + i)
      (framePixel gCurrentLUT y_ptr u_ptr v_ptr strideY strideUV pixelStrideUV j i))
    (fun o => height.toNat * width.toNat * 4 ≤ o.length) width.toNat
    (fun s i hi hs =>
      ⟨loopBody_eq gCurrentLUT y_ptr u_ptr v_ptr width height strideY strideUV pixelStrideUV
        hr i j hi hj s hs,
        by show _ ≤ (writePixel _ _ _).length; rw [writePixel_length]; exact hs⟩)
    out hlen
  exact h.1

theorem frameLoop_eq (gCurrentLUT : LutDataPointer) (y_ptr u_ptr v_ptr : Plane)
    (width height strideY strideUV pixelStrideUV : Int)
    (hr : FrameInRange width height strideY strideUV pixelStrideUV)
    (out : List (Option Nat)) (hlen : height.toNat * width.toNat * 4 ≤ out.length) :
    frameLoop gCurrentLUT y_ptr u_ptr v_ptr width height strideY strideUV pixelStrideUV out =
      some (frameWrites
        (framePixel gCurrentLUT y_ptr u_ptr v_ptr strideY strideUV pixelStrideUV)
        width.toNat height.toNat out) := by
  have h := foldlM_range_some
    (fun (o : List (Option Nat)) (j : Nat) =>
      rowLoop gCurrentLUT y_ptr u_ptr v_ptr width strideY strideUV pixelStrideUV (j : Int) o)
    (fun (o : List (Option Nat)) (j : Nat) =>
      rowWrites (framePixel gCurrentLUT y_ptr u_ptr v_ptr strideY strideUV pixelStrideUV)
        width.toNat j o)
    (fun o => height.toNat * width.toNat * 4 ≤ o.length) height.toNat
    (fun s j hj hs =>
      ⟨rowLoop_eq gCurrentLUT y_ptr u_ptr v_ptr width height strideY strideUV pixelStrideUV
        hr j hj s hs,
        by show _ ≤ (rowWrites _ _ _ _).length; rw [rowWrites_length]; exact hs⟩)
    out hlen
  exact h.1

/-- A pixel of the frame whose body has no value in any state makes the loops undefined. -/
theorem frameLoop_none (gCurrentLUT : LutDataPointer) (y_ptr u_ptr v_ptr : Plane)
    (width height strideY strideUV pixelStrideUV : Int) (i j : Nat)
    (hi : i < width.toNat) (hj : j < height.toNat)
    (hfail : ∀ out, loopBody gCurrentLUT y_ptr u_ptr v_ptr width strideY strideUV
      pixelStrideUV (j : Int) (i : Int) out = none) (out : List (Option Nat)) :
    frameLoop gCurrentLUT y_ptr u_ptr v_ptr width height strideY strideUV pixelStrideUV out =
      none :=
  foldlM_range_none _ height.toNat j hj
    (fun s => foldlM_range_none _ width.toNat i hi hfail s) out

theorem processFrame_some (env : JNIEnv) (gCurrentLUT : LutDataPointer)
    (y_ptr u_ptr v_ptr : Plane) (width height strideY strideUV pixelStrideUV : Int) :
    processFrame env gCurrentLUT (some y_ptr) (some u_ptr) (some v_ptr) width height strideY
      strideUV pixelStrideUV =
      match output_size width height with
      | none => FrameResult.undefined
      | some outputSize =>
        if outputSize < 0 then FrameResult.bad_array_new_length
        else
          match frameLoop gCurrentLUT y_ptr u_ptr v_ptr width height strideY strideUV
              pixelStrideUV (List.replicate outputSize.toNat none) with
          | none => FrameResult.undefined
          | some rgba_out =>
            if env.NewByteArray outputSize then FrameResult.array rgba_out
            else FrameResult.null := rfl

/-- The result of `processFrame` for usable planes when no `int` computation overflows:
the exception for a negative size, otherwise the array of all the stores unless
`NewByteArray` fails. -/
theorem processFrame_inRange (env : JNIEnv) (gCurrentLUT : LutDataPointer)
    (y_ptr u_ptr v_ptr : Plane) (width height strideY strideUV pixelStrideUV : Int)
    (hr : FrameInRange width height strideY strideUV pixelStrideUV) :
    processFrame env gCurrentLUT (some y_ptr) (some u_ptr) (some v_ptr) width height strideY
      strideUV pixelStrideUV =
      if width * height * 4 < 0 then FrameResult.bad_array_new_length
      else if env.NewByteArray (width * height * 4) then
        FrameResult.array (frameWrites
          (framePixel gCurrentLUT y_ptr u_ptr v_ptr strideY strideUV pixelStrideUV)
          width.toNat height.toNat (List.replicate (width * height * 4).toNat none))
      else FrameResult.null := by
  have hsz := output_size_eq hr.2.2.2.2.2.1 hr.2.2.2.2.2.2.1
  rw [processFrame_some, hsz]
  by_cases hneg : width * height * 4 < 0
  · simp only [hneg, if_true]
  · have hlen : height.toNat * width.toNat * 4 ≤
        (List.replicate (width * height * 4).toNat (none : Option Nat)).length := by
      rw [List.length_replicate]
      by_cases hw : 0 < width
      · by_cases hh : 0 < height
        · rw [toNat_size hw.le hh.le]
        · have : height.toNat = 0 := by omega
          simp [this]
      · have : width.toNat = 0 := by omega
        simp [this]
    simp only [hneg, if_false]
    rw [frameLoop_eq gCurrentLUT y_ptr u_ptr v_ptr width height strideY strideUV pixelStrideUV
      hr _ hlen]

/-! ## Rounding and the colour bytes -/

theorem stdRound_of_nonneg {f : ℚ} (h : 0 ≤ f) : stdRound f = round f := by
  simp [stdRound, h, round_eq]

theorem stdRound_unit_range {c : ℚ} (h0 : 0 ≤ c) (h1 : c ≤ 1) :
    0 ≤ stdRound (c * 255) ∧ stdRound (c * 255) ≤ 255 := by
  have hn : (0 : ℚ) ≤ c * 255 := by positivity
  have e : stdRound (c * 255) = ⌊c * 255 + 1 / 2⌋ := by simp [stdRound, hn]
  rw [e]
  constructor
  · exact Int.floor_nonneg.mpr (by positivity)
  · have : ⌊c * 255 + 1 / 2⌋ < 256 := by
      rw [Int.floor_lt]; push_cast; linarith
    omega

theorem toUint8_of_range {n : Int} (h0 : 0 ≤ n) (h1 : n ≤ 255) : ((toUint8 n : Nat) : Int) = n := by
  unfold toUint8
  omega

theorem byte_of_clamped (x : ℚ) :
    ((toUint8 (stdRound (CLAMP (x / 255) 0 1 * 255)) : Nat) : Int) = specByte x := by
  obtain ⟨h0, h1⟩ := CLAMP_unit_range (x / 255)
  obtain ⟨r0, r1⟩ := stdRound_unit_range h0 h1
  rw [toUint8_of_range r0 r1, stdRound_of_nonneg (by positivity)]
  simp [specByte, CLAMP, mul_comm]

theorem output_index_toNat {width i j : Int} (hi : 0 ≤ i ∧ i < width) (hj : 0 ≤ j) (k : Nat) :
    ((j * width + i) * 4 + (k : Int)).toNat = (j.toNat * width.toNat + i.toNat) * 4 + k := by
  obtain ⟨W, rfl⟩ := Int.eq_ofNat_of_zero_le (show (0 : Int) ≤ width by omega)
  obtain ⟨I, rfl⟩ := Int.eq_ofNat_of_zero_le hi.1
  obtain ⟨J, rfl⟩ := Int.eq_ofNat_of_zero_le hj
  have : ((J : Int) * (W : Int) + (I : Int)) * 4 + (k : Int) = (((J * W + I) * 4 + k : Nat) : Int) := by
    push_cast; ring
  rw [this]
  simp only [Int.toNat_ofNat]

/-- The bytes of a pixel in the array returned for a frame with usable planes, when no
`int` computation overflows. -/
theorem processFrame_pixel (env : JNIEnv) (gCurrentLUT : LutDataPointer)
    (y_ptr u_ptr v_ptr : Plane) (width height strideY strideUV pixelStrideUV : Int)
    (hw : 0 ≤ width) (hh : 0 ≤ height)
    (hr : FrameInRange width height strideY strideUV pixelStrideUV) :
    ∃ bytes : List (Option Nat),
      processFrame env gCurrentLUT (some y_ptr) (some u_ptr) (some v_ptr) width height strideY
        strideUV pixelStrideUV =
        (if env.NewByteArray (width * height * 4) then FrameResult.array bytes
          else FrameResult.null) ∧
      bytes.length = (width * height * 4).toNat ∧
      ∀ i j : Int, 0 ≤ i ∧ i < width → 0 ≤ j ∧ j < height → ∀ k : Nat, k < 4 →
        bytes[((j * width + i) * 4 + (k : Int)).toNat]? =
          some (some (channelByte (pixelRGB gCurrentLUT y_ptr u_ptr v_ptr
            (j * strideY + i) (j / 2 * strideUV + i / 2 * pixelStrideUV)) k)) := by
  refine ⟨frameWrites
    (framePixel gCurrentLUT y_ptr u_ptr v_ptr strideY strideUV pixelStrideUV)
    width.toNat height.toNat (List.replicate (width * height * 4).toNat none), ?_, ?_, ?_⟩
  · rw [processFrame_inRange env gCurrentLUT y_ptr u_ptr v_ptr width height strideY strideUV
      pixelStrideUV hr, if_neg]
    have := mul_nonneg hw hh
    omega
  · rw [frameWrites_length, List.length_replicate]
  · intro i j hi hj k hk
    rw [output_index_toNat hi hj.1 k]
    have h := frameWrites_pixel
      (framePixel gCurrentLUT y_ptr u_ptr v_ptr strideY strideUV pixelStrideUV)
      width.toNat height.toNat (List.replicate (width * height * 4).toNat none)
      (by rw [List.length_replicate, toNat_size hw hh]) i.toNat j.toNat k
      (by omega) (by omega) hk
    unfold framePixel at h
    rw [Int.toNat_of_nonneg hi.1, Int.toNat_of_nonneg hj.1] at h
    exact h

theorem normalizedRGB_gray (Y : ℚ) :
    normalizedRGB Y 128 128 = (specGray Y, specGray Y, specGray Y) := by
  simp [normalizedRGB, specGray, CLAMP]

theorem pixelRGB_gray (y_ptr u_ptr v_ptr : Plane) (yIndex uvIndex : Int)
    (hu : u_ptr uvIndex % 256 = 128) (hv : v_ptr uvIndex % 256 = 128) :
    pixelRGB none y_ptr u_ptr v_ptr yIndex uvIndex =
      (toUint8 (stdRound (specGray ((y_ptr yIndex % 256 : Nat) : ℚ) * 255)),
        toUint8 (stdRound (specGray ((y_ptr yIndex % 256 : Nat) : ℚ) * 255)),
        toUint8 (stdRound (specGray ((y_ptr yIndex % 256 : Nat) : ℚ) * 255))) := by
  simp only [pixelRGB, roundedRGB, filteredRGB, apply_lut, hu, hv]
  have := normalizedRGB_gray ((y_ptr yIndex % 256 : Nat) : ℚ)
  norm_num at this ⊢
  rw [this]
  simp

theorem gray_byte_black : toUint8 (stdRound (specGray 16 * 255)) = 1 := by
  norm_num [specGray, stdRound, toUint8]

theorem gray_byte_white : toUint8 (stdRound (specGray 235 * 255)) = 255 := by
  norm_num [specGray, stdRound, toUint8]
  rfl

theorem pixelRGB_black (y_ptr u_ptr v_ptr : Plane) (yIndex uvIndex : Int)
    (hy : y_ptr yIndex % 256 = 16)
    (hu : u_ptr uvIndex % 256 = 128) (hv : v_ptr uvIndex % 256 = 128) :
    pixelRGB none y_ptr u_ptr v_ptr yIndex uvIndex = (1, 1, 1) := by
  rw [pixelRGB_gray y_ptr u_ptr v_ptr yIndex uvIndex hu hv, hy]
  have e : (((16 : Nat) : ℚ)) = 16 := by norm_num
  rw [e, gray_byte_black]

theorem pixelRGB_white (y_ptr u_ptr v_ptr : Plane) (yIndex uvIndex : Int)
    (hy : y_ptr yIndex % 256 = 235)
    (hu : u_ptr uvIndex % 256 = 128) (hv : v_ptr uvIndex % 256 = 128) :
    pixelRGB none y_ptr u_ptr v_ptr yIndex uvIndex = (255, 255, 255) := by
  rw [pixelRGB_gray y_ptr u_ptr v_ptr yIndex uvIndex hu hv, hy]
  have e : (((235 : Nat) : ℚ)) = 235 := by norm_num
  rw [e, gray_byte_white]

theorem framePixel_layout (gCurrentLUT : LutDataPointer) (y_ptr uP vP uS vS : Plane)
    (width height strideY sP sS : Int)
    (hmatch : ∀ ci cj : Int, 0 ≤ ci → ci ≤ (width - 1) / 2 → 0 ≤ cj → cj ≤ (height - 1) / 2 →
      uP (cj * sP + ci) = uS (cj * sS + 2 * ci) ∧ vP (cj * sP + ci) = vS (cj * sS + 2 * ci))
    (i j : Nat) (hi : i < width.toNat) (hj : j < height.toNat) :
    framePixel gCurrentLUT y_ptr uP vP strideY sP 1 j i =
      framePixel gCurrentLUT y_ptr uS vS strideY sS 2 j i := by
  obtain ⟨hu, hv⟩ := hmatch ((i : Int) / 2) ((j : Int) / 2) (by omega) (by omega) (by omega)
    (by omega)
  have e1 : (j : Int) / 2 * sP + (i : Int) / 2 * 1 = (j : Int) / 2 * sP + (i : Int) / 2 := by
    ring
  have e2 : (j : Int) / 2 * sS + (i : Int) / 2 * 2 = (j : Int) / 2 * sS + 2 * ((i : Int) / 2) := by
    ring
  simp only [framePixel, pixelRGB, filteredRGB, e1, e2, hu, hv]

/-- A `width × height` frame with `width, height ≤ 8` and strides between 0 and 8 is in
range; used for the concrete frames below. -/
theorem frameInRange_small (width height strideY strideUV pixelStrideUV : Int)
    (hw : 0 ≤ width ∧ width ≤ 8) (hh : 0 ≤ height ∧ height ≤ 8)
    (h1 : 0 ≤ strideY ∧ strideY ≤ 8) (h2 : 0 ≤ strideUV ∧ strideUV ≤ 8)
    (h3 : 0 ≤ pixelStrideUV ∧ pixelStrideUV ≤ 8) :
    FrameInRange width height strideY strideUV pixelStrideUV := by
  have bound : ∀ a b : Int, 0 ≤ a ∧ a ≤ 8 → 0 ≤ b ∧ b ≤ 8 → 0 ≤ a * b ∧ a * b ≤ 64 := by
    intro a b ha hb
    constructor
    · exact mul_nonneg ha.1 hb.1
    · nlinarith [ha.1, ha.2, hb.1, hb.2]
  have hwh := bound width height hw hh
  refine ⟨by unfold inInt32; omega, by unfold inInt32; omega, by unfold inInt32; omega,
    by unfold inInt32; omega, by unfold inInt32; omega, by unfold inInt32; omega,
    by unfold inInt32; omega, ?_⟩
  intro i j hi hj
  have b1 := bound j strideY ⟨hj.1, by omega⟩ h1
  have b2 := bound (j / 2) strideUV ⟨by omega, by omega⟩ h2
  have b3 := bound (i / 2) pixelStrideUV ⟨by omega, by omega⟩ h3
  refine ⟨?_, ?_, ?_, ?_, ?_⟩ <;> unfold inInt32 <;> omega

theorem processFrame_undefined_of_size (env : JNIEnv) (gCurrentLUT : LutDataPointer)
    (y_ptr u_ptr v_ptr : Plane) (width height strideY strideUV pixelStrideUV : Int)
    (h : output_size width height = none) :
    processFrame env gCurrentLUT (some y_ptr) (some u_ptr) (some v_ptr) width height strideY
      strideUV pixelStrideUV = FrameResult.undefined := by
  rw [processFrame_some, h]

theorem processFrame_undefined_of_pixel (env : JNIEnv) (gCurrentLUT : LutDataPointer)
    (y_ptr u_ptr v_ptr : Plane) (width height strideY strideUV pixelStrideUV : Int)
    (n : Int) (hs : output_size width height = some n) (hn : ¬ n < 0)
    (i j : Nat) (hi : i < width.toNat) (hj : j < height.toNat)
    (hfail : ∀ out, loopBody gCurrentLUT y_ptr u_ptr v_ptr width strideY strideUV
      pixelStrideUV (j : Int) (i : Int) out = none) :
    processFrame env gCurrentLUT (some y_ptr) (some u_ptr) (some v_ptr) width height strideY
      strideUV pixelStrideUV = FrameResult.undefined := by
  rw [processFrame_some, hs]
  dsimp only
  rw [if_neg hn, frameLoop_none gCurrentLUT y_ptr u_ptr v_ptr width height strideY strideUV
    pixelStrideUV i j hi hj hfail]

/-! ## Facts about the registry -/

theorem find_eq_none_iff (m : FilterMap) (key : String) :
    m.find key = none ↔ key ∉ m.keys := by
  induction m with
  | nil => simp [FilterMap.find, FilterMap.keys]
  | cons e rest ih =>
    by_cases h : e.1 = key
    · simp [FilterMap.find, FilterMap.keys, h]
    · have h2 : ¬ key = e.1 := fun q => h q.symm
      simp only [FilterMap.keys] at ih
      simp [FilterMap.find, FilterMap.keys, h, h2, ih]

theorem find_filter_ne (m : FilterMap) (key other : String) (h : key ≠ other) :
    FilterMap.find (m.filter (fun e => decide (e.1 ≠ key))) other = m.find other := by
  induction m with
  | nil => rfl
  | cons e rest ih =>
    by_cases he : e.1 = key
    · have hne : ¬ e.1 = other := by rw [he]; exact h
      rw [List.filter_cons_of_neg (by simp [he]), ih]
      simp only [FilterMap.find, hne, if_false]
    · rw [List.filter_cons_of_pos (by simp [he])]
      simp only [FilterMap.find, ih]

theorem find_assign (m : FilterMap) (key other : String) (value : LutDataPointer) :
    (m.assign key value).find other = if key = other then some value else m.find other := by
  by_cases h : key = other
  · simp [FilterMap.assign, FilterMap.find, h]
  · simp only [FilterMap.assign, FilterMap.find, h, if_false]
    exact find_filter_ne m key other h

theorem setActiveFilter_gFilterMap (g : Globals) (filterName : String) :
    (setActiveFilter g filterName).2.gFilterMap = g.gFilterMap := by
  unfold setActiveFilter
  cases g.gFilterMap.find filterName <;> rfl

theorem find_initialize_lut_map (h : FilterHeaders) (m : FilterMap) (filterName : String)
    (hname : filterName ∈ registeredNames) :
    ∃ entry : LutDataPointer,
      (initialize_lut_map h m).find filterName = some entry ∧
        (entry = none ↔ filterName = "None") := by
  simp only [registeredNames, List.mem_cons, List.mem_singleton, List.not_mem_nil,
    or_false] at hname
  rcases hname with e | e | e | e | e | e | e | e | e | e | e | e | e | e <;> subst e <;>
    simp [initialize_lut_map, find_assign]

theorem activateAll_snoc (g : Globals) (names : List String) (filterName : String) :
    activateAll g (names ++ [filterName]) =
      (setActiveFilter (activateAll g names) filterName).2 := by
  simp [activateAll, List.foldl_append]

theorem lastRegistered_snoc (m : FilterMap) (names : List String) (filterName : String) :
    lastRegistered m (names ++ [filterName]) =
      if (m.find filterName).isSome then some filterName else lastRegistered m names := by
  simp [lastRegistered, List.find?_cons]
  cases h : (m.find filterName).isSome <;> simp [h]

/-- The Active Selection after a sequence of activations, for any starting state. -/
theorem activateAll_spec (g : Globals) (names : List String) :
    (activateAll g names).gFilterMap = g.gFilterMap ∧
      match lastRegistered g.gFilterMap names with
      | some filterName =>
        g.gFilterMap.find filterName = some (activateAll g names).gCurrentLUT
      | none => (activateAll g names).gCurrentLUT = g.gCurrentLUT := by
  induction names using List.reverseRecOn with
  | nil => exact ⟨rfl, rfl⟩
  | append_singleton names filterName ih =>
    obtain ⟨hmap, hcur⟩ := ih
    rw [activateAll_snoc, lastRegistered_snoc]
    refine ⟨by rw [setActiveFilter_gFilterMap, hmap], ?_⟩
    cases hf : g.gFilterMap.find filterName with
    | none =>
      have hf2 : (activateAll g names).gFilterMap.find filterName = none := by rw [hmap, hf]
      simp only [Option.isSome_none, Bool.false_eq_true, if_false, setActiveFilter, hf2]
      exact hcur
    | some entry =>
      have hf2 : (activateAll g names).gFilterMap.find filterName = some entry := by
        rw [hmap, hf]
      simp only [Option.isSome_some, if_true, setActiveFilter, hf2, hf]

/-! ## Further facts about the interpolation -/

theorem truncToInt_intCast (n : Int) : truncToInt (n : ℚ) = n := by
  by_cases h : (0 : ℚ) ≤ (n : ℚ) <;> simp [truncToInt, h]

theorem lutCoords_lattice (kr kg kb : Int) :
    lutCoords ((kr : ℚ) / 32) ((kg : ℚ) / 32) ((kb : ℚ) / 32) =
      { x := kr, y := kg, z := kb, x_d := 0, y_d := 0, z_d := 0,
        x1 := min (kr + 1) 32, y1 := min (kg + 1) 32, z1 := min (kb + 1) 32 } := by
  have e : ∀ n : Int, (n : ℚ) / 32 * ((LUT_DIM - 1 : Int) : ℚ) = (n : ℚ) := by
    intro n; norm_num [LUT_DIM]
  simp only [lutCoords, e, truncToInt_intCast, sub_self]
  simp [LUT_DIM]

theorem lerp_between {m M a b t : ℚ} (ha : m ≤ a ∧ a ≤ M) (hb : m ≤ b ∧ b ≤ M)
    (ht : 0 ≤ t ∧ t ≤ 1) : m ≤ a * (1 - t) + b * t ∧ a * (1 - t) + b * t ≤ M := by
  have h1 : 0 ≤ 1 - t := by linarith [ht.2]
  have p1 := mul_le_mul_of_nonneg_right ha.1 h1
  have p2 := mul_le_mul_of_nonneg_right ha.2 h1
  have p3 := mul_le_mul_of_nonneg_right hb.1 ht.1
  have p4 := mul_le_mul_of_nonneg_right hb.2 ht.1
  constructor <;> nlinarith

theorem weight_range {c : ℚ} (h0 : 0 ≤ c) :
    0 ≤ c * ((LUT_DIM - 1 : Int) : ℚ) - ((truncToInt (c * ((LUT_DIM - 1 : Int) : ℚ)) : Int) : ℚ) ∧
      c * ((LUT_DIM - 1 : Int) : ℚ) - ((truncToInt (c * ((LUT_DIM - 1 : Int) : ℚ)) : Int) : ℚ)
        < 1 := by
  have hs : (0 : ℚ) ≤ c * ((LUT_DIM - 1 : Int) : ℚ) := by
    have : (0 : ℚ) ≤ ((LUT_DIM - 1 : Int) : ℚ) := by norm_num [LUT_DIM]
    exact mul_nonneg h0 this
  rw [truncToInt_of_nonneg hs]
  have h1 := Int.floor_le (c * ((LUT_DIM - 1 : Int) : ℚ))
  have h2 := Int.lt_floor_add_one (c * ((LUT_DIM - 1 : Int) : ℚ))
  constructor <;> linarith

theorem lutCoords_inCube (r_in g_in b_in : ℚ)
    (hr : 0 ≤ r_in ∧ r_in ≤ 1) (hg : 0 ≤ g_in ∧ g_in ≤ 1) (hb : 0 ≤ b_in ∧ b_in ≤ 1) :
    inCube (lutCoords r_in g_in b_in).x ∧ inCube (lutCoords r_in g_in b_in).y ∧
      inCube (lutCoords r_in g_in b_in).z ∧ inCube (lutCoords r_in g_in b_in).x1 ∧
      inCube (lutCoords r_in g_in b_in).y1 ∧ inCube (lutCoords r_in g_in b_in).z1 :=
  ⟨truncToInt_scaled_range hr.1 hr.2, truncToInt_scaled_range hg.1 hg.2,
    truncToInt_scaled_range hb.1 hb.2,
    upper_index_range (truncToInt_scaled_range hr.1 hr.2).1,
    upper_index_range (truncToInt_scaled_range hg.1 hg.2).1,
    upper_index_range (truncToInt_scaled_range hb.1 hb.2).1⟩

theorem lutBlend_between (lut : LutData) (k : LutCoords) (i : Nat) (m M : ℚ)
    (hx : 0 ≤ k.x_d ∧ k.x_d ≤ 1) (hy : 0 ≤ k.y_d ∧ k.y_d ≤ 1) (hz : 0 ≤ k.z_d ∧ k.z_d ≤ 1)
    (c000 : m ≤ lut k.z k.y k.x i ∧ lut k.z k.y k.x i ≤ M)
    (c001 : m ≤ lut k.z k.y k.x1 i ∧ lut k.z k.y k.x1 i ≤ M)
    (c010 : m ≤ lut k.z k.y1 k.x i ∧ lut k.z k.y1 k.x i ≤ M)
    (c011 : m ≤ lut k.z k.y1 k.x1 i ∧ lut k.z k.y1 k.x1 i ≤ M)
    (c100 : m ≤ lut k.z1 k.y k.x i ∧ lut k.z1 k.y k.x i ≤ M)
    (c101 : m ≤ lut k.z1 k.y k.x1 i ∧ lut k.z1 k.y k.x1 i ≤ M)
    (c110 : m ≤ lut k.z1 k.y1 k.x i ∧ lut k.z1 k.y1 k.x i ≤ M)
    (c111 : m ≤ lut k.z1 k.y1 k.x1 i ∧ lut k.z1 k.y1 k.x1 i ≤ M) :
    m ≤ lutBlend lut k i ∧ lutBlend lut k i ≤ M :=
  lerp_between
    (lerp_between (lerp_between c000 c001 hx) (lerp_between c010 c011 hx) hy)
    (lerp_between (lerp_between c100 c101 hx) (lerp_between c110 c111 hx) hy) hz

theorem CLAMP_of_unit {c : ℚ} (h : 0 ≤ c ∧ c ≤ 1) : CLAMP c 0 1 = c := by
  simp [CLAMP, h.1, h.2]

theorem roundedRGB_range (gCurrentLUT : LutDataPointer) (Y U V : ℚ) :
    (0 ≤ stdRound ((apply_lut gCurrentLUT (normalizedRGB Y U V).1 (normalizedRGB Y U V).2.1
        (normalizedRGB Y U V).2.2).1 * 255) ∧
      stdRound ((apply_lut gCurrentLUT (normalizedRGB Y U V).1 (normalizedRGB Y U V).2.1
        (normalizedRGB Y U V).2.2).1 * 255) ≤ 255) ∧
    (0 ≤ stdRound ((apply_lut gCurrentLUT (normalizedRGB Y U V).1 (normalizedRGB Y U V).2.1
        (normalizedRGB Y U V).2.2).2.1 * 255) ∧
      stdRound ((apply_lut gCurrentLUT (normalizedRGB Y U V).1 (normalizedRGB Y U V).2.1
        (normalizedRGB Y U V).2.2).2.1 * 255) ≤ 255) ∧
    (0 ≤ stdRound ((apply_lut gCurrentLUT (normalizedRGB Y U V).1 (normalizedRGB Y U V).2.1
        (normalizedRGB Y U V).2.2).2.2 * 255) ∧
      stdRound ((apply_lut gCurrentLUT (normalizedRGB Y U V).1 (normalizedRGB Y U V).2.1
        (normalizedRGB Y U V).2.2).2.2 * 255) ≤ 255) := by
  cases gCurrentLUT with
  | none =>
    exact ⟨stdRound_unit_range (CLAMP_unit_range _).1 (CLAMP_unit_range _).2,
      stdRound_unit_range (CLAMP_unit_range _).1 (CLAMP_unit_range _).2,
      stdRound_unit_range (CLAMP_unit_range _).1 (CLAMP_unit_range _).2⟩
  | some lut =>
    exact ⟨stdRound_unit_range (CLAMP_unit_range _).1 (CLAMP_unit_range _).2,
      stdRound_unit_range (CLAMP_unit_range _).1 (CLAMP_unit_range _).2,
      stdRound_unit_range (CLAMP_unit_range _).1 (CLAMP_unit_range _).2⟩

/-! ## The frame processor without a table -/

/-- C1 (amended). With no active table, for a frame with three usable planes whose
arguments and `int` computations are representable in 32 bits (`FrameInRange`), and a
pixel in row `j`, column `i` (`0 ≤ i < width`, `0 ≤ j < height`), let
`Y = luma[j*strideY + i]`, `U = chroma1[(j/2)*strideUV + (i/2)*pixelStrideUV]` and
`V = chroma2[...]` at the same offset.  Then the returned array (returned unless
`NewByteArray` fails) holds at the offsets `(j*width+i)*4 + 0, 1, 2` the bytes
`round(255 * clamp01(R/255))`, `round(255 * clamp01(G/255))` and
`round(255 * clamp01(B/255))` for the `R G B` of spec 4.1. -/
theorem processFrame_no_lut_bytes (env : JNIEnv) (y_ptr u_ptr v_ptr : Plane)
    (width height strideY strideUV pixelStrideUV i j : Int)
    (hr : FrameInRange width height strideY strideUV pixelStrideUV)
    (hi : 0 ≤ i ∧ i < width) (hj : 0 ≤ j ∧ j < height) :
    ∃ (bytes : List (Option Nat)) (R G B : Nat),
      processFrame env none (some y_ptr) (some u_ptr) (some v_ptr) width height strideY
        strideUV pixelStrideUV =
        (if env.NewByteArray (width * height * 4) then FrameResult.array bytes
          else FrameResult.null) ∧
      bytes[((j * width + i) * 4 + 0).toNat]? = some (some R) ∧
      bytes[((j * width + i) * 4 + 1).toNat]? = some (some G) ∧
      bytes[((j * width + i) * 4 + 2).toNat]? = some (some B) ∧
      (R : Int) = specByte (specR
        ((y_ptr (j * strideY + i) % 256 : Nat) : ℚ)
        ((u_ptr (j / 2 * strideUV + i / 2 * pixelStrideUV) % 256 : Nat) : ℚ)
        ((v_ptr (j / 2 * strideUV + i / 2 * pixelStrideUV) % 256 : Nat) : ℚ)) ∧
      (G : Int) = specByte (specG
        ((y_ptr (j * strideY + i) % 256 : Nat) : ℚ)
        ((u_ptr (j / 2 * strideUV + i / 2 * pixelStrideUV) % 256 : Nat) : ℚ)
        ((v_ptr (j / 2 * strideUV + i / 2 * pixelStrideUV) % 256 : Nat) : ℚ)) ∧
      (B : Int) = specByte (specB
        ((y_ptr (j * strideY + i) % 256 : Nat) : ℚ)
        ((u_ptr (j / 2 * strideUV + i / 2 * pixelStrideUV) % 256 : Nat) : ℚ)
        ((v_ptr (j / 2 * strideUV + i / 2 * pixelStrideUV) % 256 : Nat) : ℚ)) := by
  obtain ⟨bytes, hres, -, hpix⟩ := processFrame_pixel env none y_ptr u_ptr v_ptr width height
    strideY strideUV pixelStrideUV (by omega) (by omega) hr
  refine ⟨bytes, _, _, _, hres, hpix i j hi hj 0 (by omega), hpix i j hi hj 1 (by omega),
    hpix i j hi hj 2 (by omega), ?_, ?_, ?_⟩
  · simp only [channelByte, pixelRGB, roundedRGB, filteredRGB, apply_lut, normalizedRGB,
      if_true]
    exact byte_of_clamped _
  · simp only [channelByte, pixelRGB, roundedRGB, filteredRGB, apply_lut, normalizedRGB]
    exact byte_of_clamped _
  · simp only [channelByte, pixelRGB, roundedRGB, filteredRGB, apply_lut, normalizedRGB]
    exact byte_of_clamped _

theorem processFrame_no_lut_bytes_witness :
    ∃ (bytes : List (Option Nat)) (R G B : Nat),
      processFrame ⟨fun _ => true⟩ none (some fun _ => 16) (some fun _ => 128)
        (some fun _ => 128) 2 2 2 1 1 =
        (if (JNIEnv.mk fun _ => true).NewByteArray (2 * 2 * 4) then FrameResult.array bytes
          else FrameResult.null) ∧
      bytes[(((1 : Int) * 2 + 1) * 4 + 0).toNat]? = some (some R) ∧
      bytes[(((1 : Int) * 2 + 1) * 4 + 1).toNat]? = some (some G) ∧
      bytes[(((1 : Int) * 2 + 1) * 4 + 2).toNat]? = some (some B) ∧
      (R : Int) = specByte (specR
        (((fun _ => 16 : Plane) ((1 : Int) * 2 + 1) % 256 : Nat) : ℚ)
        (((fun _ => 128 : Plane) ((1 : Int) / 2 * 1 + 1 / 2 * 1) % 256 : Nat) : ℚ)
        (((fun _ => 128 : Plane) ((1 : Int) / 2 * 1 + 1 / 2 * 1) % 256 : Nat) : ℚ)) ∧
      (G : Int) = specByte (specG
        (((fun _ => 16 : Plane) ((1 : Int) * 2 + 1) % 256 : Nat) : ℚ)
        (((fun _ => 128 : Plane) ((1 : Int) / 2 * 1 + 1 / 2 * 1) % 256 : Nat) : ℚ)
        (((fun _ => 128 : Plane) ((1 : Int) / 2 * 1 + 1 / 2 * 1) % 256 : Nat) : ℚ)) ∧
      (B : Int) = specByte (specB
        (((fun _ => 16 : Plane) ((1 : Int) * 2 + 1) % 256 : Nat) : ℚ)
        (((fun _ => 128 : Plane) ((1 : Int) / 2 * 1 + 1 / 2 * 1) % 256 : Nat) : ℚ)
        (((fun _ => 128 : Plane) ((1 : Int) / 2 * 1 + 1 / 2 * 1) % 256 : Nat) : ℚ)) :=
  processFrame_no_lut_bytes ⟨fun _ => true⟩ (fun _ => 16) (fun _ => 128) (fun _ => 128)
    2 2 2 1 1 1 1
    (frameInRange_small 2 2 2 1 1 (by decide) (by decide) (by decide) (by decide) (by decide))
    (by decide) (by decide)

/-- Without a bound on the strides the statement of C1 fails: for a `1 × 3` frame with
`strideY = 2^30` the luma offset `j*strideY` of row `j = 2` is `2^31`, which no `int`
holds; the call has undefined behaviour and yields no array holding the bytes of the
pixel `(0, 2)`. -/
theorem no_lut_bytes_counterexample :
    processFrame ⟨fun _ => true⟩ none (some fun _ => 16) (some fun _ => 128)
        (some fun _ => 128) 1 3 1073741824 1 1 = FrameResult.undefined ∧
    ¬ ∃ (bytes : List (Option Nat)) (R G B : Nat),
      processFrame ⟨fun _ => true⟩ none (some fun _ => 16) (some fun _ => 128)
        (some fun _ => 128) 1 3 1073741824 1 1 =
        (if (JNIEnv.mk fun _ => true).NewByteArray (1 * 3 * 4) then FrameResult.array bytes
          else FrameResult.null) ∧
      bytes[(((2 : Int) * 1 + 0) * 4 + 0).toNat]? = some (some R) ∧
      bytes[(((2 : Int) * 1 + 0) * 4 + 1).toNat]? = some (some G) ∧
      bytes[(((2 : Int) * 1 + 0) * 4 + 2).toNat]? = some (some B) := by
  have hu : processFrame ⟨fun _ => true⟩ none (some fun _ => 16) (some fun _ => 128)
      (some fun _ => 128) 1 3 1073741824 1 1 = FrameResult.undefined := by
    have hs : output_size 1 3 = some 12 := by decide
    rw [processFrame_some, hs]
    have hl := frameLoop_none none (fun _ => 16) (fun _ => 128) (fun _ => 128) 1 3 1073741824
      1 1 0 2 (by decide) (by decide)
      (fun out => by
        have hy : y_index 2 0 1073741824 = none := by decide
        simp [loopBody, hy])
      (List.replicate (12 : Int).toNat none)
    dsimp only
    rw [if_neg (by decide), hl]
  refine ⟨hu, ?_⟩
  rintro ⟨bytes, R, G, B, h, -⟩
  rw [hu] at h
  simp at h

/-! ## The LUT interpolator -/

/-- C2. With no active table (`gCurrentLUT` is `nullptr`) the three outputs of `apply_lut`
are exactly its three inputs, in the same order, for every input. -/
theorem apply_lut_identity (r_in g_in b_in : ℚ) :
    apply_lut none r_in g_in b_in = (r_in, g_in, b_in) := rfl

/-- C3. With a table active, whatever the cells of the table hold and whatever the input is
(in particular for every input in `[0,1]³`), each of the three outputs of `apply_lut` lies
in `[0,1]`. -/
theorem apply_lut_output_range (lut : LutData) (r_in g_in b_in : ℚ) :
    (0 ≤ (apply_lut (some lut) r_in g_in b_in).1 ∧
        (apply_lut (some lut) r_in g_in b_in).1 ≤ 1) ∧
      (0 ≤ (apply_lut (some lut) r_in g_in b_in).2.1 ∧
        (apply_lut (some lut) r_in g_in b_in).2.1 ≤ 1) ∧
      (0 ≤ (apply_lut (some lut) r_in g_in b_in).2.2 ∧
        (apply_lut (some lut) r_in g_in b_in).2.2 ≤ 1) :=
  ⟨CLAMP_unit_range _, CLAMP_unit_range _, CLAMP_unit_range _⟩

/-- C4. For every input in `[0,1]³` (a channel equal to `1` included) the six grid indices
`x y z x1 y1 z1` computed by `apply_lut` lie in `0..32`; and the result of `apply_lut`
is the same for any two tables that agree on the cells of the side-33 cube (all indices
in `0..32`, channel below 3), that is, no cell outside the cube is read. -/
theorem apply_lut_indices_in_cube (r_in g_in b_in : ℚ)
    (hr : 0 ≤ r_in ∧ r_in ≤ 1) (hg : 0 ≤ g_in ∧ g_in ≤ 1) (hb : 0 ≤ b_in ∧ b_in ≤ 1) :
    (inCube (lutCoords r_in g_in b_in).x ∧ inCube (lutCoords r_in g_in b_in).y ∧
      inCube (lutCoords r_in g_in b_in).z ∧ inCube (lutCoords r_in g_in b_in).x1 ∧
      inCube (lutCoords r_in g_in b_in).y1 ∧ inCube (lutCoords r_in g_in b_in).z1) ∧
    ∀ lut lut2 : LutData,
      (∀ z y x i, inCube z → inCube y → inCube x → i < 3 → lut z y x i = lut2 z y x i) →
      apply_lut (some lut) r_in g_in b_in = apply_lut (some lut2) r_in g_in b_in := by
  have hx := truncToInt_scaled_range hr.1 hr.2
  have hy := truncToInt_scaled_range hg.1 hg.2
  have hz := truncToInt_scaled_range hb.1 hb.2
  have hx1 := upper_index_range hx.1
  have hy1 := upper_index_range hy.1
  have hz1 := upper_index_range hz.1
  have hall : inCube (lutCoords r_in g_in b_in).x ∧ inCube (lutCoords r_in g_in b_in).y ∧
      inCube (lutCoords r_in g_in b_in).z ∧ inCube (lutCoords r_in g_in b_in).x1 ∧
      inCube (lutCoords r_in g_in b_in).y1 ∧ inCube (lutCoords r_in g_in b_in).z1 :=
    ⟨hx, hy, hz, hx1, hy1, hz1⟩
  refine ⟨hall, ?_⟩
  intro lut lut2 hagree
  obtain ⟨kx, ky, kz, kx1, ky1, kz1⟩ := hall
  simp only [apply_lut, lutBlend]
  have hcell : ∀ z y x, inCube z → inCube y → inCube x →
      lut z y x 0 = lut2 z y x 0 ∧ lut z y x 1 = lut2 z y x 1 ∧ lut z y x 2 = lut2 z y x 2 :=
    fun z y x hz hy hx =>
      ⟨hagree z y x 0 hz hy hx (by decide), hagree z y x 1 hz hy hx (by decide),
        hagree z y x 2 hz hy hx (by decide)⟩
  obtain ⟨a0, a1, a2⟩ := hcell _ _ _ kz ky kx
  obtain ⟨b0, b1, b2⟩ := hcell _ _ _ kz ky kx1
  obtain ⟨c0, c1, c2⟩ := hcell _ _ _ kz ky1 kx
  obtain ⟨d0, d1, d2⟩ := hcell _ _ _ kz ky1 kx1
  obtain ⟨e0, e1, e2⟩ := hcell _ _ _ kz1 ky kx
  obtain ⟨f0, f1, f2⟩ := hcell _ _ _ kz1 ky kx1
  obtain ⟨g0, g1, g2⟩ := hcell _ _ _ kz1 ky1 kx
  obtain ⟨h0, h1, h2⟩ := hcell _ _ _ kz1 ky1 kx1
  simp only [a0, a1, a2, b0, b1, b2, c0, c1, c2, d0, d1, d2, e0, e1, e2, f0, f1, f2,
    g0, g1, g2, h0, h1, h2]

theorem apply_lut_indices_in_cube_witness :
    (inCube (lutCoords 1 (1 / 2) 0).x ∧ inCube (lutCoords 1 (1 / 2) 0).y ∧
      inCube (lutCoords 1 (1 / 2) 0).z ∧ inCube (lutCoords 1 (1 / 2) 0).x1 ∧
      inCube (lutCoords 1 (1 / 2) 0).y1 ∧ inCube (lutCoords 1 (1 / 2) 0).z1) ∧
    ∀ lut lut2 : LutData,
      (∀ z y x i, inCube z → inCube y → inCube x → i < 3 → lut z y x i = lut2 z y x i) →
      apply_lut (some lut) 1 (1 / 2) 0 = apply_lut (some lut2) 1 (1 / 2) 0 :=
  apply_lut_indices_in_cube 1 (1 / 2) 0 (by norm_num) (by norm_num) (by norm_num)

/-! ## The frame processor -/

/-- C5 (amended). For every `width` and `height`, luma plane and active selection: if the
arguments and `int` computations of both calls are representable in 32 bits
(`FrameInRange`), and a fully-planar frame (chroma pixel stride 1, chroma row stride `sP`)
and a semi-planar frame (chroma pixel stride 2, chroma row stride `sS`) hold the same `U`
and `V` samples at every chroma coordinate `(ci, cj)` with `ci ≤ (width-1)/2` and
`cj ≤ (height-1)/2`, then `processFrame` produces the same result for both. -/
theorem processFrame_layout_agnostic (env : JNIEnv) (gCurrentLUT : LutDataPointer)
    (y_ptr uP vP uS vS : Plane) (width height strideY sP sS : Int)
    (hrP : FrameInRange width height strideY sP 1)
    (hrS : FrameInRange width height strideY sS 2)
    (hmatch : ∀ ci cj : Int, 0 ≤ ci → ci ≤ (width - 1) / 2 → 0 ≤ cj → cj ≤ (height - 1) / 2 →
      uP (cj * sP + ci) = uS (cj * sS + 2 * ci) ∧ vP (cj * sP + ci) = vS (cj * sS + 2 * ci)) :
    processFrame env gCurrentLUT (some y_ptr) (some uP) (some vP) width height strideY sP 1 =
      processFrame env gCurrentLUT (some y_ptr) (some uS) (some vS) width height strideY sS 2 := by
  have hloop : ∀ out : List (Option Nat),
      frameWrites (framePixel gCurrentLUT y_ptr uP vP strideY sP 1) width.toNat height.toNat
          out =
        frameWrites (framePixel gCurrentLUT y_ptr uS vS strideY sS 2) width.toNat height.toNat
          out := by
    intro out
    apply List.ext_getElem?
    intro m
    rw [frameWrites_getElem?, frameWrites_getElem?]
    by_cases hc : m / 4 < height.toNat * width.toNat ∧ m < out.length
    · rw [if_pos hc, if_pos hc]
      have hW : 0 < width.toNat := by
        rcases Nat.eq_zero_or_pos width.toNat with h0 | h0
        · rw [h0] at hc; simp at hc
        · exact h0
      have hi : m / 4 % width.toNat < width.toNat := Nat.mod_lt _ hW
      have hj : m / 4 / width.toNat < height.toNat := (Nat.div_lt_iff_lt_mul hW).mpr hc.1
      rw [framePixel_layout gCurrentLUT y_ptr uP vP uS vS width height strideY sP sS hmatch
        _ _ hi hj]
    · rw [if_neg hc, if_neg hc]
  rw [processFrame_inRange env gCurrentLUT y_ptr uP vP width height strideY sP 1 hrP,
    processFrame_inRange env gCurrentLUT y_ptr uS vS width height strideY sS 2 hrS, hloop]

theorem processFrame_layout_agnostic_witness :
    processFrame ⟨fun _ => true⟩ none (some fun _ => 100)
        (some fun n => if n = 0 then 10 else if n = 1 then 20 else 0)
        (some fun n => if n = 0 then 30 else if n = 1 then 40 else 0) 4 2 4 2 1 =
      processFrame ⟨fun _ => true⟩ none (some fun _ => 100)
        (some fun n => if n = 0 then 10 else if n = 2 then 20 else 0)
        (some fun n => if n = 0 then 30 else if n = 2 then 40 else 0) 4 2 4 4 2 :=
  processFrame_layout_agnostic ⟨fun _ => true⟩ none (fun _ => 100)
    (fun n => if n = 0 then 10 else if n = 1 then 20 else 0)
    (fun n => if n = 0 then 30 else if n = 1 then 40 else 0)
    (fun n => if n = 0 then 10 else if n = 2 then 20 else 0)
    (fun n => if n = 0 then 30 else if n = 2 then 40 else 0) 4 2 4 2 4
    (frameInRange_small 4 2 4 2 1 (by decide) (by decide) (by decide) (by decide) (by decide))
    (frameInRange_small 4 2 4 4 2 (by decide) (by decide) (by decide) (by decide) (by decide))
    (by
      intro ci cj h1 h2 h3 h4
      have hcj : cj = 0 := by omega
      have hci : ci = 0 ∨ ci = 1 := by omega
      subst hcj
      rcases hci with e | e <;> subst e <;> simp)

/-- Without a bound on the strides the statement of C5 fails: for a `1 × 5` frame whose
chroma samples are all 128 in both layouts, the fully-planar call (`sP = 1`) returns an
array, while in the semi-planar call with `sS = 2^30` the product `uv_y * strideUV` of row
`j = 4` is `2^31`, which no `int` holds, so that call has undefined behaviour. -/
theorem layout_agnostic_counterexample :
    (∀ ci cj : Int, 0 ≤ ci → ci ≤ ((1 : Int) - 1) / 2 → 0 ≤ cj → cj ≤ ((5 : Int) - 1) / 2 →
      (fun _ => 128 : Plane) (cj * 1 + ci) = (fun _ => 128 : Plane) (cj * 1073741824 + 2 * ci) ∧
      (fun _ => 128 : Plane) (cj * 1 + ci) =
        (fun _ => 128 : Plane) (cj * 1073741824 + 2 * ci)) ∧
    processFrame ⟨fun _ => true⟩ none (some fun _ => 16) (some fun _ => 128)
        (some fun _ => 128) 1 5 1 1 1 ≠
      processFrame ⟨fun _ => true⟩ none (some fun _ => 16) (some fun _ => 128)
        (some fun _ => 128) 1 5 1 1073741824 2 := by
  refine ⟨fun _ _ _ _ _ _ => ⟨rfl, rfl⟩, ?_⟩
  have hP := processFrame_inRange ⟨fun _ => true⟩ none (fun _ => 16) (fun _ => 128)
    (fun _ => 128) 1 5 1 1 1
    (frameInRange_small 1 5 1 1 1 (by decide) (by decide) (by decide) (by decide) (by decide))
  have hS : processFrame ⟨fun _ => true⟩ none (some fun _ => 16) (some fun _ => 128)
      (some fun _ => 128) 1 5 1 1073741824 2 = FrameResult.undefined :=
    processFrame_undefined_of_pixel _ none _ _ _ 1 5 1 1073741824 2 20 (by decide)
      (by decide) 0 4 (by decide) (by decide)
      (fun out => by
        have hy : y_index 4 0 1 = some 4 := by decide
        have huv : uv_index 4 0 1073741824 2 = none := by decide
        simp [loopBody, hy, huv])
  rw [hP, hS]
  simp

/-- C6 (amended). For a frame with three usable planes, non-negative `width` and `height`
whose arguments and `int` computations are representable in 32 bits (`FrameInRange`; in
particular `width*height*4 ≤ 2^31 - 1`), and any active selection, the returned array
(returned unless `NewByteArray` fails) has exactly `width*height*4` bytes and, for every
pixel `(i, j)`, holds `255` at the offset `(j*width+i)*4 + 3` of the row-major layout
without row padding. -/
theorem processFrame_output_shape (env : JNIEnv) (gCurrentLUT : LutDataPointer)
    (y_ptr u_ptr v_ptr : Plane) (width height strideY strideUV pixelStrideUV : Int)
    (hw : 0 ≤ width) (hh : 0 ≤ height)
    (hr : FrameInRange width height strideY strideUV pixelStrideUV) :
    ∃ bytes : List (Option Nat),
      processFrame env gCurrentLUT (some y_ptr) (some u_ptr) (some v_ptr) width height strideY
        strideUV pixelStrideUV =
        (if env.NewByteArray (width * height * 4) then FrameResult.array bytes
          else FrameResult.null) ∧
      (bytes.length : Int) = width * height * 4 ∧
      ∀ i j : Int, 0 ≤ i ∧ i < width → 0 ≤ j ∧ j < height →
        bytes[((j * width + i) * 4 + 3).toNat]? = some (some 255) := by
  obtain ⟨bytes, hres, hlen, hpix⟩ := processFrame_pixel env gCurrentLUT y_ptr u_ptr v_ptr
    width height strideY strideUV pixelStrideUV hw hh hr
  refine ⟨bytes, hres, ?_, ?_⟩
  · rw [hlen]
    exact Int.toNat_of_nonneg (by have := mul_nonneg hw hh; omega)
  · intro i j hi hj
    exact hpix i j hi hj 3 (by omega)

theorem processFrame_output_shape_witness :
    ∃ bytes : List (Option Nat),
      processFrame ⟨fun _ => true⟩ none (some fun _ => 16) (some fun _ => 128)
        (some fun _ => 128) 3 2 3 2 1 =
        (if (JNIEnv.mk fun _ => true).NewByteArray (3 * 2 * 4) then FrameResult.array bytes
          else FrameResult.null) ∧
      (bytes.length : Int) = 3 * 2 * 4 ∧
      ∀ i j : Int, 0 ≤ i ∧ i < 3 → 0 ≤ j ∧ j < 2 →
        bytes[((j * 3 + i) * 4 + 3).toNat]? = some (some 255) :=
  processFrame_output_shape ⟨fun _ => true⟩ none (fun _ => 16) (fun _ => 128) (fun _ => 128)
    3 2 3 2 1 (by decide) (by decide)
    (frameInRange_small 3 2 3 2 1 (by decide) (by decide) (by decide) (by decide) (by decide))

/-- Without a bound on the size the statement of C6 fails: for `width = height = 32768`
the size `width*height*4 = 2^32` is not an `int` value, `output_size` overflows, and the
call has undefined behaviour instead of returning an array of `2^32` bytes. -/
theorem output_shape_counterexample :
    processFrame ⟨fun _ => true⟩ none (some fun _ => 16) (some fun _ => 128)
        (some fun _ => 128) 32768 32768 32768 16384 1 = FrameResult.undefined ∧
    ¬ ∃ bytes : List (Option Nat),
      processFrame ⟨fun _ => true⟩ none (some fun _ => 16) (some fun _ => 128)
        (some fun _ => 128) 32768 32768 32768 16384 1 =
        (if (JNIEnv.mk fun _ => true).NewByteArray (32768 * 32768 * 4) then
          FrameResult.array bytes else FrameResult.null) ∧
      (bytes.length : Int) = 32768 * 32768 * 4 := by
  have hu : processFrame ⟨fun _ => true⟩ none (some fun _ => 16) (some fun _ => 128)
      (some fun _ => 128) 32768 32768 32768 16384 1 = FrameResult.undefined :=
    processFrame_undefined_of_size _ none _ _ _ 32768 32768 32768 16384 1 (by decide)
  refine ⟨hu, ?_⟩
  rintro ⟨bytes, h, -⟩
  rw [hu] at h
  simp at h

/-- C7. Allocation failure aside (`NewByteArray` yields an array), `processFrame` returns
`nullptr` if and only if at least one of the three plane pointers is null, for every
`width`, `height`, strides and active selection. -/
theorem processFrame_null_iff (env : JNIEnv) (gCurrentLUT : LutDataPointer)
    (yBuffer uBuffer vBuffer : Option Plane)
    (width height strideY strideUV pixelStrideUV : Int)
    (halloc : env.NewByteArray (width * height * 4) = true) :
    processFrame env gCurrentLUT yBuffer uBuffer vBuffer width height strideY strideUV
        pixelStrideUV = FrameResult.null ↔
      (yBuffer = none ∨ uBuffer = none ∨ vBuffer = none) := by
  cases yBuffer with
  | none => simp [processFrame]
  | some y_ptr =>
    cases uBuffer with
    | none => simp [processFrame]
    | some u_ptr =>
      cases vBuffer with
      | none => simp [processFrame]
      | some v_ptr =>
        rw [processFrame_some]
        cases hs : output_size width height with
        | none => simp
        | some n =>
          have hn := output_size_eq_some hs
          subst hn
          dsimp only
          by_cases hneg : width * height * 4 < 0
          · simp [hneg]
          · rw [if_neg hneg]
            cases frameLoop gCurrentLUT y_ptr u_ptr v_ptr width height strideY strideUV
                pixelStrideUV (List.replicate (width * height * 4).toNat none) with
            | none => simp
            | some rgba_out => simp [halloc]

/-- The scenario of spec section 8: a `1 × 1` frame whose luma plane pointer is null
yields no result. -/
theorem processFrame_null_iff_witness :
    processFrame ⟨fun _ => true⟩ none none (some fun _ => 128) (some fun _ => 128)
      1 1 1 1 1 = FrameResult.null :=
  (processFrame_null_iff ⟨fun _ => true⟩ none none (some fun _ => 128) (some fun _ => 128)
    1 1 1 1 1 rfl).mpr (Or.inl rfl)

/-! ## The filter registry -/

/-- C8. For every state of the registry and of the Active Selection and every name that
is not a key of the registry, `setActiveFilter` returns `false` and leaves both the
Active Selection and the registry as they were. -/
theorem setActiveFilter_unknown (g : Globals) (filterName : String)
    (h : filterName ∉ g.gFilterMap.keys) :
    setActiveFilter g filterName = (false, g) := by
  have hf : g.gFilterMap.find filterName = none := (find_eq_none_iff _ _).mpr h
  simp [setActiveFilter, hf]

theorem setActiveFilter_unknown_witness :
    setActiveFilter
      { gCurrentLUT := some fun _ _ _ _ => 1,
        gFilterMap := initialize_lut_map (uniformHeaders fun _ _ _ _ => 0) [] }
      "Nonexistent" =
      (false,
        { gCurrentLUT := some fun _ _ _ _ => 1,
          gFilterMap := initialize_lut_map (uniformHeaders fun _ _ _ _ => 0) [] }) :=
  setActiveFilter_unknown _ "Nonexistent" (by decide)

/-- C9. After `initialize_lut_map`, whatever the Active Selection was before: for each of
the 14 registered names (the keys of the registry built by `JNI_OnLoad` from the initial
state) `setActiveFilter` returns `true` and sets the Active Selection to the registry's
entry for that name (`nullptr` exactly for `"None"`), leaving the registry as it was; in
particular after `setActiveFilter("None")` the Active Selection is `nullptr` and
`apply_lut` is the identity. -/
theorem setActiveFilter_registered (h : FilterHeaders) (g : Globals) (filterName : String)
    (hname : filterName ∈ registeredNames) :
    registeredNames.length = 14 ∧
    (JNI_OnLoad h initialGlobals).gFilterMap.keys = registeredNames.reverse ∧
    (∃ entry : LutDataPointer,
      (JNI_OnLoad h g).gFilterMap.find filterName = some entry ∧
      (entry = none ↔ filterName = "None") ∧
      setActiveFilter (JNI_OnLoad h g) filterName =
        (true, { gCurrentLUT := entry, gFilterMap := (JNI_OnLoad h g).gFilterMap })) ∧
    setActiveFilter (JNI_OnLoad h g) "None" =
      (true, { gCurrentLUT := none, gFilterMap := (JNI_OnLoad h g).gFilterMap }) ∧
    ∀ r_in g_in b_in : ℚ,
      apply_lut (setActiveFilter (JNI_OnLoad h g) "None").2.gCurrentLUT r_in g_in b_in =
        (r_in, g_in, b_in) := by
  have hnone : (JNI_OnLoad h g).gFilterMap.find "None" = some none := by
    simp [JNI_OnLoad, initialize_lut_map, find_assign]
  have hset : setActiveFilter (JNI_OnLoad h g) "None" =
      (true, { gCurrentLUT := none, gFilterMap := (JNI_OnLoad h g).gFilterMap }) := by
    simp only [setActiveFilter, hnone]
  refine ⟨rfl, rfl, ?_, hset, ?_⟩
  · obtain ⟨entry, hfind, hnull⟩ := find_initialize_lut_map h g.gFilterMap filterName hname
    refine ⟨entry, hfind, hnull, ?_⟩
    have hfind2 : (JNI_OnLoad h g).gFilterMap.find filterName = some entry := hfind
    simp only [setActiveFilter, hfind2]
  · intro r_in g_in b_in
    rw [hset]
    rfl

theorem setActiveFilter_registered_witness :
    registeredNames.length = 14 ∧
    (JNI_OnLoad (uniformHeaders fun _ _ _ _ => 0) initialGlobals).gFilterMap.keys =
      registeredNames.reverse ∧
    (∃ entry : LutDataPointer,
      (JNI_OnLoad (uniformHeaders fun _ _ _ _ => 0) initialGlobals).gFilterMap.find "Waves" =
        some entry ∧
      (entry = none ↔ "Waves" = "None") ∧
      setActiveFilter (JNI_OnLoad (uniformHeaders fun _ _ _ _ => 0) initialGlobals) "Waves" =
        (true, { gCurrentLUT := entry,
                 gFilterMap :=
                  (JNI_OnLoad (uniformHeaders fun _ _ _ _ => 0) initialGlobals).gFilterMap })) ∧
    setActiveFilter (JNI_OnLoad (uniformHeaders fun _ _ _ _ => 0) initialGlobals) "None" =
      (true, { gCurrentLUT := none,
               gFilterMap :=
                (JNI_OnLoad (uniformHeaders fun _ _ _ _ => 0) initialGlobals).gFilterMap }) ∧
    ∀ r_in g_in b_in : ℚ,
      apply_lut (setActiveFilter (JNI_OnLoad (uniformHeaders fun _ _ _ _ => 0)
        initialGlobals) "None").2.gCurrentLUT r_in g_in b_in = (r_in, g_in, b_in) :=
  setActiveFilter_registered (uniformHeaders fun _ _ _ _ => 0) initialGlobals "Waves"
    (by decide)

/-- C10. Starting from the initial state (`gCurrentLUT = nullptr`) with the registry
initialised by `JNI_OnLoad`, after any finite sequence of `setActiveFilter` calls the
Active Selection is the registry entry of the last name of the sequence that is a
registry key, or `nullptr` if no name of the sequence is a key; hence it is always
`nullptr` or an entry of the registry.  The registry itself is unchanged. -/
theorem activateAll_current_selection (h : FilterHeaders) (names : List String) :
    (activateAll (JNI_OnLoad h initialGlobals) names).gFilterMap =
        (JNI_OnLoad h initialGlobals).gFilterMap ∧
      (match lastRegistered (JNI_OnLoad h initialGlobals).gFilterMap names with
        | some filterName =>
          (JNI_OnLoad h initialGlobals).gFilterMap.find filterName =
            some (activateAll (JNI_OnLoad h initialGlobals) names).gCurrentLUT
        | none => (activateAll (JNI_OnLoad h initialGlobals) names).gCurrentLUT = none) ∧
      ((activateAll (JNI_OnLoad h initialGlobals) names).gCurrentLUT = none ∨
        ∃ filterName,
          (JNI_OnLoad h initialGlobals).gFilterMap.find filterName =
            some (activateAll (JNI_OnLoad h initialGlobals) names).gCurrentLUT) := by
  obtain ⟨hmap, hcur⟩ := activateAll_spec (JNI_OnLoad h initialGlobals) names
  refine ⟨hmap, ?_, ?_⟩
  · cases hl : lastRegistered (JNI_OnLoad h initialGlobals).gFilterMap names with
    | none => rw [hl] at hcur; exact hcur
    | some filterName => rw [hl] at hcur; exact hcur
  · cases hl : lastRegistered (JNI_OnLoad h initialGlobals).gFilterMap names with
    | none => rw [hl] at hcur; exact Or.inl hcur
    | some filterName => rw [hl] at hcur; exact Or.inr ⟨filterName, hcur⟩

/-! ## Scenarios, the load stub and the interpolation in detail -/

/-- C11. For every luma value `Y` in `0..255` with neutral chroma `U = V = 128` the three
normalized channels are equal, with common value
`clamp01(((298*(Y-16) + 128)/256)/255)`; consequently, with no active table, the three
colour bytes computed for a pixel whose chroma samples are 128 are equal, whatever the
offsets read, and they are the three equal colour bytes of that pixel in the array
returned for a frame whose `int` computations are representable (`FrameInRange`). -/
theorem processFrame_gray_pixel (env : JNIEnv) (y_ptr u_ptr v_ptr : Plane)
    (width height strideY strideUV pixelStrideUV i j : Int)
    (hr : FrameInRange width height strideY strideUV pixelStrideUV)
    (hi : 0 ≤ i ∧ i < width) (hj : 0 ≤ j ∧ j < height)
    (hu : u_ptr (j / 2 * strideUV + i / 2 * pixelStrideUV) % 256 = 128)
    (hv : v_ptr (j / 2 * strideUV + i / 2 * pixelStrideUV) % 256 = 128) :
    (∀ Y : Nat, Y ≤ 255 →
      normalizedRGB (Y : ℚ) 128 128 =
        (max 0 (min 1 ((298 * ((Y : ℚ) - 16) + 128) / 256 / 255)),
          max 0 (min 1 ((298 * ((Y : ℚ) - 16) + 128) / 256 / 255)),
          max 0 (min 1 ((298 * ((Y : ℚ) - 16) + 128) / 256 / 255)))) ∧
    (∀ (y2 u2 v2 : Plane) (yIndex uvIndex : Int),
      u2 uvIndex % 256 = 128 → v2 uvIndex % 256 = 128 →
      ∃ b : Nat, pixelRGB none y2 u2 v2 yIndex uvIndex = (b, b, b)) ∧
    ∃ (bytes : List (Option Nat)) (b : Nat),
      processFrame env none (some y_ptr) (some u_ptr) (some v_ptr) width height strideY
        strideUV pixelStrideUV =
        (if env.NewByteArray (width * height * 4) then FrameResult.array bytes
          else FrameResult.null) ∧
      bytes[((j * width + i) * 4 + 0).toNat]? = some (some b) ∧
      bytes[((j * width + i) * 4 + 1).toNat]? = some (some b) ∧
      bytes[((j * width + i) * 4 + 2).toNat]? = some (some b) := by
  refine ⟨fun Y _ => normalizedRGB_gray Y,
    fun y2 u2 v2 yIndex uvIndex h1 h2 => ⟨_, pixelRGB_gray y2 u2 v2 yIndex uvIndex h1 h2⟩, ?_⟩
  obtain ⟨bytes, hres, -, hpix⟩ := processFrame_pixel env none y_ptr u_ptr v_ptr width height
    strideY strideUV pixelStrideUV (by omega) (by omega) hr
  have hp := pixelRGB_gray y_ptr u_ptr v_ptr (j * strideY + i)
    (j / 2 * strideUV + i / 2 * pixelStrideUV) hu hv
  refine ⟨bytes,
    toUint8 (stdRound (specGray ((y_ptr (j * strideY + i) % 256 : Nat) : ℚ) * 255)),
    hres, ?_, ?_, ?_⟩
  · have h0 := hpix i j hi hj 0 (by omega)
    rw [hp] at h0
    exact h0
  · have h1 := hpix i j hi hj 1 (by omega)
    rw [hp] at h1
    exact h1
  · have h2 := hpix i j hi hj 2 (by omega)
    rw [hp] at h2
    exact h2

theorem processFrame_gray_pixel_witness :
    (∀ Y : Nat, Y ≤ 255 →
      normalizedRGB (Y : ℚ) 128 128 =
        (max 0 (min 1 ((298 * ((Y : ℚ) - 16) + 128) / 256 / 255)),
          max 0 (min 1 ((298 * ((Y : ℚ) - 16) + 128) / 256 / 255)),
          max 0 (min 1 ((298 * ((Y : ℚ) - 16) + 128) / 256 / 255)))) ∧
    (∀ (y2 u2 v2 : Plane) (yIndex uvIndex : Int),
      u2 uvIndex % 256 = 128 → v2 uvIndex % 256 = 128 →
      ∃ b : Nat, pixelRGB none y2 u2 v2 yIndex uvIndex = (b, b, b)) ∧
    ∃ (bytes : List (Option Nat)) (b : Nat),
      processFrame ⟨fun _ => true⟩ none (some fun n => (n * 40).toNat) (some fun _ => 128)
        (some fun _ => 128) 2 2 2 2 1 =
        (if (JNIEnv.mk fun _ => true).NewByteArray (2 * 2 * 4) then FrameResult.array bytes
          else FrameResult.null) ∧
      bytes[(((1 : Int) * 2 + 1) * 4 + 0).toNat]? = some (some b) ∧
      bytes[(((1 : Int) * 2 + 1) * 4 + 1).toNat]? = some (some b) ∧
      bytes[(((1 : Int) * 2 + 1) * 4 + 2).toNat]? = some (some b) :=
  processFrame_gray_pixel ⟨fun _ => true⟩ (fun n => (n * 40).toNat) (fun _ => 128)
    (fun _ => 128) 2 2 2 2 1 1 1
    (frameInRange_small 2 2 2 2 1 (by decide) (by decide) (by decide) (by decide) (by decide))
    (by decide) (by decide) rfl rfl

/-- C12, the code at the failing input. A `1 × 1` frame with `Y = 16`, `U = V = 128`,
processed with no active filter, is returned as the bytes `(1, 1, 1, 255)`, not
`(0, 0, 0, 255)`: the colour value is `(298*0 + 128)/256 = 0.5`, it is divided by 255
and multiplied by 255 again, and `std::round(0.5)` is 1. -/
theorem processFrame_black_pixel :
    processFrame ⟨fun _ => true⟩ none (some fun _ => 16) (some fun _ => 128)
        (some fun _ => 128) 1 1 1 1 1 =
      FrameResult.array [some 1, some 1, some 1, some 255] ∧
    FrameResult.array [some 1, some 1, some 1, some 255] ≠
      FrameResult.array [some 0, some 0, some 0, some 255] := by
  constructor
  · rw [processFrame_inRange ⟨fun _ => true⟩ none (fun _ => 16) (fun _ => 128)
      (fun _ => 128) 1 1 1 1 1
      (frameInRange_small 1 1 1 1 1 (by decide) (by decide) (by decide) (by decide)
        (by decide))]
    have hp : framePixel none (fun _ => 16) (fun _ => 128) (fun _ => 128) 1 1 1 0 0 =
        (1, 1, 1) :=
      pixelRGB_black _ _ _ _ _ rfl rfl rfl
    simp [frameWrites, rowWrites, writePixel, hp, List.range_succ]
  · simp

/-- C13 (amended). For every `width` and `height` whose frame has its arguments and `int`
computations representable in 32 bits (`FrameInRange`), a frame in which every luma
sample is 235 and every chroma sample is 128, processed with no active filter, has at
every pixel an RGBA value whose `R`, `G` and `B` are each within 1 of 255 (they are 255)
and whose alpha is 255. -/
theorem processFrame_white_frame (env : JNIEnv) (y_ptr u_ptr v_ptr : Plane)
    (width height strideY strideUV pixelStrideUV i j : Int)
    (hr : FrameInRange width height strideY strideUV pixelStrideUV)
    (hy : ∀ n, y_ptr n = 235) (hu : ∀ n, u_ptr n = 128) (hv : ∀ n, v_ptr n = 128)
    (hi : 0 ≤ i ∧ i < width) (hj : 0 ≤ j ∧ j < height) :
    ∃ (bytes : List (Option Nat)) (R G B : Nat),
      processFrame env none (some y_ptr) (some u_ptr) (some v_ptr) width height strideY
        strideUV pixelStrideUV =
        (if env.NewByteArray (width * height * 4) then FrameResult.array bytes
          else FrameResult.null) ∧
      bytes[((j * width + i) * 4 + 0).toNat]? = some (some R) ∧
      bytes[((j * width + i) * 4 + 1).toNat]? = some (some G) ∧
      bytes[((j * width + i) * 4 + 2).toNat]? = some (some B) ∧
      bytes[((j * width + i) * 4 + 3).toNat]? = some (some 255) ∧
      (254 ≤ R ∧ R ≤ 256) ∧ (254 ≤ G ∧ G ≤ 256) ∧ (254 ≤ B ∧ B ≤ 256) ∧
      R = 255 ∧ G = 255 ∧ B = 255 := by
  obtain ⟨bytes, hres, -, hpix⟩ := processFrame_pixel env none y_ptr u_ptr v_ptr width height
    strideY strideUV pixelStrideUV (by omega) (by omega) hr
  have hp := pixelRGB_white y_ptr u_ptr v_ptr (j * strideY + i)
    (j / 2 * strideUV + i / 2 * pixelStrideUV) (by rw [hy]) (by rw [hu]) (by rw [hv])
  have h0 := hpix i j hi hj 0 (by omega)
  have h1 := hpix i j hi hj 1 (by omega)
  have h2 := hpix i j hi hj 2 (by omega)
  have h3 := hpix i j hi hj 3 (by omega)
  rw [hp] at h0 h1 h2 h3
  exact ⟨bytes, 255, 255, 255, hres, h0, h1, h2, h3, by omega, by omega, by omega,
    rfl, rfl, rfl⟩

theorem processFrame_white_frame_witness :
    ∃ (bytes : List (Option Nat)) (R G B : Nat),
      processFrame ⟨fun _ => true⟩ none (some fun _ => 235) (some fun _ => 128)
        (some fun _ => 128) 2 2 2 2 1 =
        (if (JNIEnv.mk fun _ => true).NewByteArray (2 * 2 * 4) then FrameResult.array bytes
          else FrameResult.null) ∧
      bytes[(((1 : Int) * 2 + 1) * 4 + 0).toNat]? = some (some R) ∧
      bytes[(((1 : Int) * 2 + 1) * 4 + 1).toNat]? = some (some G) ∧
      bytes[(((1 : Int) * 2 + 1) * 4 + 2).toNat]? = some (some B) ∧
      bytes[(((1 : Int) * 2 + 1) * 4 + 3).toNat]? = some (some 255) ∧
      (254 ≤ R ∧ R ≤ 256) ∧ (254 ≤ G ∧ G ≤ 256) ∧ (254 ≤ B ∧ B ≤ 256) ∧
      R = 255 ∧ G = 255 ∧ B = 255 :=
  processFrame_white_frame ⟨fun _ => true⟩ (fun _ => 235) (fun _ => 128) (fun _ => 128)
    2 2 2 2 1 1 1
    (frameInRange_small 2 2 2 2 1 (by decide) (by decide) (by decide) (by decide) (by decide))
    (fun _ => rfl) (fun _ => rfl) (fun _ => rfl) (by decide) (by decide)

/-- Without a bound on the size the statement of C13 fails: for the white frame with
`width = height = 32768` the size `width*height*4 = 2^32` is not an `int` value, the call
has undefined behaviour and returns no array holding 255 at the pixel `(0, 0)`. -/
theorem white_frame_counterexample :
    processFrame ⟨fun _ => true⟩ none (some fun _ => 235) (some fun _ => 128)
        (some fun _ => 128) 32768 32768 32768 16384 1 = FrameResult.undefined ∧
    ¬ ∃ (bytes : List (Option Nat)) (R G B : Nat),
      processFrame ⟨fun _ => true⟩ none (some fun _ => 235) (some fun _ => 128)
        (some fun _ => 128) 32768 32768 32768 16384 1 =
        (if (JNIEnv.mk fun _ => true).NewByteArray (32768 * 32768 * 4) then
          FrameResult.array bytes else FrameResult.null) ∧
      bytes[(((0 : Int) * 32768 + 0) * 4 + 0).toNat]? = some (some R) ∧
      bytes[(((0 : Int) * 32768 + 0) * 4 + 1).toNat]? = some (some G) ∧
      bytes[(((0 : Int) * 32768 + 0) * 4 + 2).toNat]? = some (some B) ∧
      bytes[(((0 : Int) * 32768 + 0) * 4 + 3).toNat]? = some (some 255) := by
  have hu : processFrame ⟨fun _ => true⟩ none (some fun _ => 235) (some fun _ => 128)
      (some fun _ => 128) 32768 32768 32768 16384 1 = FrameResult.undefined :=
    processFrame_undefined_of_size _ none _ _ _ 32768 32768 32768 16384 1 (by decide)
  refine ⟨hu, ?_⟩
  rintro ⟨bytes, R, G, B, h, -⟩
  rw [hu] at h
  simp at h

/-- C14. For every byte array and every declared size, `loadLut` returns `true` and
leaves the registry and the Active Selection as they were; and every entry point other
than `setActiveFilter` leaves the Active Selection as it was. -/
theorem loadLut_stub (g : Globals) (lutData : List Nat) (size : Int) :
    loadLut g lutData size = (true, g) ∧
      ∀ call : NativeCall,
        (∃ filterName, call = NativeCall.setActiveFilter filterName) ∨
          (call.globalsAfter g).gCurrentLUT = g.gCurrentLUT := by
  refine ⟨rfl, ?_⟩
  intro call
  cases call with
  | JNI_OnLoad h => exact Or.inr rfl
  | processFrame env y u v w h a b c => exact Or.inr rfl
  | setActiveFilter filterName => exact Or.inl ⟨filterName, rfl⟩
  | loadLut d s => exact Or.inr rfl

/-- C15 (amended). For every input in `[0,1]³`, with the lower grid index of a channel
being the integer part of `value * 32`, the upper grid index used for the interpolation
is `min(lower + 1, 32)`: the tentative upper index is clamped to `LUT_DIM - 1 = 32`, the
maximum valid index of the side-33 cube. -/
theorem apply_lut_upper_index (r_in g_in b_in : ℚ)
    (hr : 0 ≤ r_in ∧ r_in ≤ 1) (hg : 0 ≤ g_in ∧ g_in ≤ 1) (hb : 0 ≤ b_in ∧ b_in ≤ 1) :
    ((lutCoords r_in g_in b_in).x = ⌊r_in * 32⌋ ∧
      (lutCoords r_in g_in b_in).x1 = min ((lutCoords r_in g_in b_in).x + 1) 32) ∧
    ((lutCoords r_in g_in b_in).y = ⌊g_in * 32⌋ ∧
      (lutCoords r_in g_in b_in).y1 = min ((lutCoords r_in g_in b_in).y + 1) 32) ∧
    ((lutCoords r_in g_in b_in).z = ⌊b_in * 32⌋ ∧
      (lutCoords r_in g_in b_in).z1 = min ((lutCoords r_in g_in b_in).z + 1) 32) := by
  have h1 : (0 : ℚ) ≤ r_in * 32 := by linarith [hr.1]
  have h2 : (0 : ℚ) ≤ g_in * 32 := by linarith [hg.1]
  have h3 : (0 : ℚ) ≤ b_in * 32 := by linarith [hb.1]
  simp [lutCoords, LUT_DIM, truncToInt, h1, h2, h3]

theorem apply_lut_upper_index_witness :
    ((lutCoords (31 / 32) 1 0).x = ⌊(31 / 32 : ℚ) * 32⌋ ∧
      (lutCoords (31 / 32) 1 0).x1 = min ((lutCoords (31 / 32) 1 0).x + 1) 32) ∧
    ((lutCoords (31 / 32) 1 0).y = ⌊(1 : ℚ) * 32⌋ ∧
      (lutCoords (31 / 32) 1 0).y1 = min ((lutCoords (31 / 32) 1 0).y + 1) 32) ∧
    ((lutCoords (31 / 32) 1 0).z = ⌊(0 : ℚ) * 32⌋ ∧
      (lutCoords (31 / 32) 1 0).z1 = min ((lutCoords (31 / 32) 1 0).z + 1) 32) :=
  apply_lut_upper_index (31 / 32) 1 0 (by norm_num) (by norm_num) (by norm_num)

/-- The upper index is not `min(lower + 1, 31)`: for the red input `31/32` the lower index
is 31 and the upper index used is 32. -/
theorem upper_index_counterexample :
    (lutCoords (31 / 32) 0 0).x = 31 ∧ (lutCoords (31 / 32) 0 0).x1 = 32 ∧
      (lutCoords (31 / 32) 0 0).x1 ≠ min ((lutCoords (31 / 32) 0 0).x + 1) 31 := by
  norm_num [lutCoords, truncToInt, LUT_DIM]

/-- C16. Over exact arithmetic, for every table, channel and input, the value that
`apply_lut` computes before the clamp (red axis collapsed first, then green, then blue)
is the value obtained from the same eight cells and the same three weights by collapsing
the axes in each of the six possible orders. -/
theorem lutBlend_axis_order (lut : LutData) (r_in g_in b_in : ℚ) (i : Nat) :
    blendInOrder lut (lutCoords r_in g_in b_in) i Axis.red Axis.green Axis.blue =
        lutBlend lut (lutCoords r_in g_in b_in) i ∧
      blendInOrder lut (lutCoords r_in g_in b_in) i Axis.red Axis.blue Axis.green =
        lutBlend lut (lutCoords r_in g_in b_in) i ∧
      blendInOrder lut (lutCoords r_in g_in b_in) i Axis.green Axis.red Axis.blue =
        lutBlend lut (lutCoords r_in g_in b_in) i ∧
      blendInOrder lut (lutCoords r_in g_in b_in) i Axis.green Axis.blue Axis.red =
        lutBlend lut (lutCoords r_in g_in b_in) i ∧
      blendInOrder lut (lutCoords r_in g_in b_in) i Axis.blue Axis.red Axis.green =
        lutBlend lut (lutCoords r_in g_in b_in) i ∧
      blendInOrder lut (lutCoords r_in g_in b_in) i Axis.blue Axis.green Axis.red =
        lutBlend lut (lutCoords r_in g_in b_in) i := by
  generalize lutCoords r_in g_in b_in = k
  refine ⟨?_, ?_, ?_, ?_, ?_, ?_⟩ <;>
    simp [blendInOrder, cellAt, lerp, axisWeight, lutBlend] <;> ring

/-- C17. With a table active, for integer grid indices `kr kg kb` (in particular for
those in `0..32`) the input `(kr/32, kg/32, kb/32)` yields in every channel `c` the value
`clamp01(table[kb][kg][kr][c])`: the cell addressed in the order
`[blue][green][red][channel]`, with no contribution of a neighbouring cell. -/
theorem apply_lut_lattice_point (lut : LutData) (kr kg kb : Int) :
    apply_lut (some lut) ((kr : ℚ) / 32) ((kg : ℚ) / 32) ((kb : ℚ) / 32) =
      (max 0 (min 1 (lut kb kg kr 0)), max 0 (min 1 (lut kb kg kr 1)),
        max 0 (min 1 (lut kb kg kr 2))) := by
  simp only [apply_lut, lutCoords_lattice, lutBlend, CLAMP]
  simp

/-- C18. Over exact arithmetic, for every table and every input in `[0,1]³`: the three
interpolation weights lie in `[0,1)`; for each channel the blended value before the final
clamp lies between the least and the greatest of the eight cells read for that channel;
hence, when every cell of the table is in `[0,1]`, the final clamp changes nothing. -/
theorem lutBlend_convex (lut : LutData) (r_in g_in b_in : ℚ) (i : Nat)
    (hr : 0 ≤ r_in ∧ r_in ≤ 1) (hg : 0 ≤ g_in ∧ g_in ≤ 1) (hb : 0 ≤ b_in ∧ b_in ≤ 1) :
    (0 ≤ (lutCoords r_in g_in b_in).x_d ∧ (lutCoords r_in g_in b_in).x_d < 1) ∧
    (0 ≤ (lutCoords r_in g_in b_in).y_d ∧ (lutCoords r_in g_in b_in).y_d < 1) ∧
    (0 ≤ (lutCoords r_in g_in b_in).z_d ∧ (lutCoords r_in g_in b_in).z_d < 1) ∧
    (cellsMin lut (lutCoords r_in g_in b_in) i ≤ lutBlend lut (lutCoords r_in g_in b_in) i ∧
      lutBlend lut (lutCoords r_in g_in b_in) i ≤ cellsMax lut (lutCoords r_in g_in b_in) i) ∧
    ((∀ z y x c, inCube z → inCube y → inCube x → c < 3 →
        0 ≤ lut z y x c ∧ lut z y x c ≤ 1) →
      apply_lut (some lut) r_in g_in b_in =
        (lutBlend lut (lutCoords r_in g_in b_in) 0, lutBlend lut (lutCoords r_in g_in b_in) 1,
          lutBlend lut (lutCoords r_in g_in b_in) 2)) := by
  have wx : 0 ≤ (lutCoords r_in g_in b_in).x_d ∧ (lutCoords r_in g_in b_in).x_d < 1 :=
    weight_range hr.1
  have wy : 0 ≤ (lutCoords r_in g_in b_in).y_d ∧ (lutCoords r_in g_in b_in).y_d < 1 :=
    weight_range hg.1
  have wz : 0 ≤ (lutCoords r_in g_in b_in).z_d ∧ (lutCoords r_in g_in b_in).z_d < 1 :=
    weight_range hb.1
  obtain ⟨kx, ky, kz, kx1, ky1, kz1⟩ := lutCoords_inCube r_in g_in b_in hr hg hb
  refine ⟨wx, wy, wz, ?_, ?_⟩
  · apply lutBlend_between lut _ i _ _ ⟨wx.1, wx.2.le⟩ ⟨wy.1, wy.2.le⟩ ⟨wz.1, wz.2.le⟩ <;>
      constructor <;> simp [cellsMin, cellsMax]
  · intro hcells
    have hb3 : ∀ c, c < 3 → 0 ≤ lutBlend lut (lutCoords r_in g_in b_in) c ∧
        lutBlend lut (lutCoords r_in g_in b_in) c ≤ 1 := fun c hc =>
      lutBlend_between lut _ c 0 1 ⟨wx.1, wx.2.le⟩ ⟨wy.1, wy.2.le⟩ ⟨wz.1, wz.2.le⟩
        (hcells _ _ _ c kz ky kx hc) (hcells _ _ _ c kz ky kx1 hc)
        (hcells _ _ _ c kz ky1 kx hc) (hcells _ _ _ c kz ky1 kx1 hc)
        (hcells _ _ _ c kz1 ky kx hc) (hcells _ _ _ c kz1 ky kx1 hc)
        (hcells _ _ _ c kz1 ky1 kx hc) (hcells _ _ _ c kz1 ky1 kx1 hc)
    simp only [apply_lut, CLAMP_of_unit (hb3 0 (by decide)), CLAMP_of_unit (hb3 1 (by decide)),
      CLAMP_of_unit (hb3 2 (by decide))]

theorem lutBlend_convex_witness :
    (0 ≤ (lutCoords 1 (1 / 3) 0).x_d ∧ (lutCoords 1 (1 / 3) 0).x_d < 1) ∧
    (0 ≤ (lutCoords 1 (1 / 3) 0).y_d ∧ (lutCoords 1 (1 / 3) 0).y_d < 1) ∧
    (0 ≤ (lutCoords 1 (1 / 3) 0).z_d ∧ (lutCoords 1 (1 / 3) 0).z_d < 1) ∧
    (cellsMin (fun z y x _ => ((z + y + x : Int) : ℚ) / 96) (lutCoords 1 (1 / 3) 0) 1 ≤
        lutBlend (fun z y x _ => ((z + y + x : Int) : ℚ) / 96) (lutCoords 1 (1 / 3) 0) 1 ∧
      lutBlend (fun z y x _ => ((z + y + x : Int) : ℚ) / 96) (lutCoords 1 (1 / 3) 0) 1 ≤
        cellsMax (fun z y x _ => ((z + y + x : Int) : ℚ) / 96) (lutCoords 1 (1 / 3) 0) 1) ∧
    ((∀ z y x c, inCube z → inCube y → inCube x → c < 3 →
        0 ≤ (fun z y x _ => ((z + y + x : Int) : ℚ) / 96 : LutData) z y x c ∧
          (fun z y x _ => ((z + y + x : Int) : ℚ) / 96 : LutData) z y x c ≤ 1) →
      apply_lut (some fun z y x _ => ((z + y + x : Int) : ℚ) / 96) 1 (1 / 3) 0 =
        (lutBlend (fun z y x _ => ((z + y + x : Int) : ℚ) / 96) (lutCoords 1 (1 / 3) 0) 0,
          lutBlend (fun z y x _ => ((z + y + x : Int) : ℚ) / 96) (lutCoords 1 (1 / 3) 0) 1,
          lutBlend (fun z y x _ => ((z + y + x : Int) : ℚ) / 96) (lutCoords 1 (1 / 3) 0) 2)) :=
  lutBlend_convex (fun z y x _ => ((z + y + x : Int) : ℚ) / 96) 1 (1 / 3) 0 1
    (by norm_num) (by norm_num) (by norm_num)

/-- C19 (amended). For `width ≥ 1`, `height ≥ 1`, `strideY ≥ width`, non-negative
`strideUV` and `pixelStrideUV`, and sizes representable as `int` (`width*height*4`,
`strideY*height` and the last chroma offset are at most `2^31 - 1`): if the luma plane has
at least `strideY*height` bytes and each chroma plane at least
`((height-1)/2)*strideUV + ((width-1)/2)*pixelStrideUV + 1` bytes, then for every pixel
`(i, j)` of the frame the code's `y_index` is `j*strideY + i` and its `uv_index` is
`(j/2)*strideUV + (i/2)*pixelStrideUV`, both valid indices of their planes, and its
`output_index` is `(j*width+i)*4` with `output_index + 3` below `output_size =
width*height*4`, so that the four stores of the pixel fall inside `rgba_out`. -/
theorem processFrame_offsets_in_bounds
    (width height strideY strideUV pixelStrideUV lumaSize chromaSize i j : Int)
    (hw : 1 ≤ width) (_hh : 1 ≤ height) (hsY : width ≤ strideY)
    (hsUV : 0 ≤ strideUV) (hps : 0 ≤ pixelStrideUV)
    (hluma : strideY * height ≤ lumaSize)
    (hchroma : (height - 1) / 2 * strideUV + (width - 1) / 2 * pixelStrideUV + 1 ≤ chromaSize)
    (hrSize : width * height * 4 ≤ 2147483647)
    (hrLuma : strideY * height ≤ 2147483647)
    (hrChroma : (height - 1) / 2 * strideUV + (width - 1) / 2 * pixelStrideUV ≤ 2147483647)
    (hi : 0 ≤ i ∧ i < width) (hj : 0 ≤ j ∧ j < height) :
    (y_index j i strideY = some (j * strideY + i) ∧
      0 ≤ j * strideY + i ∧ j * strideY + i < lumaSize) ∧
    (uv_index j i strideUV pixelStrideUV = some (j / 2 * strideUV + i / 2 * pixelStrideUV) ∧
      0 ≤ j / 2 * strideUV + i / 2 * pixelStrideUV ∧
      j / 2 * strideUV + i / 2 * pixelStrideUV < chromaSize) ∧
    (output_size width height = some (width * height * 4) ∧
      output_index j width i = some ((j * width + i) * 4) ∧
      0 ≤ (j * width + i) * 4 ∧ (j * width + i) * 4 + 3 < width * height * 4) ∧
    ∀ (rgba_out : List (Option Nat)) (p : Nat × Nat × Nat),
      (rgba_out.length : Int) = width * height * 4 →
      ∃ out, storePixel rgba_out ((j * width + i) * 4) p = some out := by
  have hsY0 : 0 ≤ strideY := by omega
  have a1 : 0 ≤ j * strideY := mul_nonneg hj.1 hsY0
  have a2 : (j + 1) * strideY ≤ height * strideY :=
    mul_le_mul_of_nonneg_right (by omega) hsY0
  have b1 : 0 ≤ j / 2 * strideUV := mul_nonneg (by omega) hsUV
  have b2 : 0 ≤ i / 2 * pixelStrideUV := mul_nonneg (by omega) hps
  have b3 : j / 2 * strideUV ≤ (height - 1) / 2 * strideUV :=
    mul_le_mul_of_nonneg_right (by omega) hsUV
  have b4 : i / 2 * pixelStrideUV ≤ (width - 1) / 2 * pixelStrideUV :=
    mul_le_mul_of_nonneg_right (by omega) hps
  have c1 : 0 ≤ j * width := mul_nonneg hj.1 (by omega)
  have c2 : (j + 1) * width ≤ height * width :=
    mul_le_mul_of_nonneg_right (by omega) (by omega)
  have c3 : 0 ≤ width * height := mul_nonneg (by omega) (by omega)
  have e1 : (j + 1) * strideY = j * strideY + strideY := by ring
  have e2 : height * strideY = strideY * height := by ring
  have e3 : (j + 1) * width = j * width + width := by ring
  have e4 : height * width = width * height := by ring
  have hout : 0 ≤ (j * width + i) * 4 ∧ (j * width + i) * 4 + 3 < width * height * 4 := by
    constructor <;> omega
  refine ⟨⟨y_index_eq ?_ ?_, ?_, ?_⟩, ⟨uv_index_eq hj.1 hi.1 ?_ ?_ ?_, ?_, ?_⟩,
    ⟨output_size_eq ?_ ?_, output_index_eq ?_ ?_ ?_, hout.1, hout.2⟩, ?_⟩
  · unfold inInt32; omega
  · unfold inInt32; omega
  · omega
  · omega
  · unfold inInt32; omega
  · unfold inInt32; omega
  · unfold inInt32; omega
  · omega
  · omega
  · unfold inInt32; omega
  · unfold inInt32; omega
  · unfold inInt32; omega
  · unfold inInt32; omega
  · unfold inInt32; omega
  · intro rgba_out p hlen
    obtain ⟨n, hn⟩ := Int.eq_ofNat_of_zero_le (show 0 ≤ j * width + i by omega)
    have h4 : (j * width + i) * 4 = ((4 * n : Nat) : Int) := by rw [hn]; push_cast; ring
    rw [h4]
    exact ⟨_, storePixel_eq rgba_out n p (by omega) (by unfold inInt32; omega)⟩

theorem processFrame_offsets_in_bounds_witness :
    (y_index 1 3 6 = some (1 * 6 + 3) ∧ 0 ≤ (1 : Int) * 6 + 3 ∧ (1 : Int) * 6 + 3 < 12) ∧
    (uv_index 1 3 4 2 = some (1 / 2 * 4 + 3 / 2 * 2) ∧
      0 ≤ (1 : Int) / 2 * 4 + 3 / 2 * 2 ∧ (1 : Int) / 2 * 4 + 3 / 2 * 2 < 3) ∧
    (output_size 4 2 = some (4 * 2 * 4) ∧ output_index 1 4 3 = some ((1 * 4 + 3) * 4) ∧
      0 ≤ ((1 : Int) * 4 + 3) * 4 ∧ ((1 : Int) * 4 + 3) * 4 + 3 < 4 * 2 * 4) ∧
    ∀ (rgba_out : List (Option Nat)) (p : Nat × Nat × Nat),
      (rgba_out.length : Int) = 4 * 2 * 4 →
      ∃ out, storePixel rgba_out (((1 : Int) * 4 + 3) * 4) p = some out :=
  processFrame_offsets_in_bounds 4 2 6 4 2 12 3 3 1 (by decide) (by decide) (by decide)
    (by decide) (by decide) (by decide) (by decide) (by decide) (by decide) (by decide)
    (by decide) (by decide)

/-- Without a bound on the sizes the statement of C19 fails: its hypotheses hold for
`width = height = strideY = 32768`, `strideUV = 16384`, `pixelStrideUV = 1`, a luma plane
of `2^30` and chroma planes of `2^28` bytes, but for the pixel `(32767, 32767)` the
code's `output_index = (j*width+i)*4 = 2^32 - 4` and `output_size = 2^32` are not `int`
values: the code has no output offset below its output size there. -/
theorem offsets_in_bounds_counterexample :
    ((1 : Int) ≤ 32768 ∧ (32768 : Int) ≤ 32768 ∧ (0 : Int) ≤ 16384 ∧ (0 : Int) ≤ 1 ∧
      (32768 : Int) * 32768 ≤ 1073741824 ∧
      ((32768 : Int) - 1) / 2 * 16384 + ((32768 : Int) - 1) / 2 * 1 + 1 ≤ 268435456 ∧
      (0 : Int) ≤ 32767 ∧ (32767 : Int) < 32768) ∧
    output_index 32767 32768 32767 = none ∧ output_size 32768 32768 = none ∧
    ¬ ∃ o n : Int, output_index 32767 32768 32767 = some o ∧
      output_size 32768 32768 = some n ∧ o + 3 < n := by
  have h1 : output_index 32767 32768 32767 = none := by decide
  have h2 : output_size 32768 32768 = none := by decide
  refine ⟨by decide, h1, h2, ?_⟩
  rintro ⟨o, n, ho, -⟩
  rw [h1] at ho
  simp at ho

/-- C20. For every active selection (no table, or a table with arbitrary cells) and
whatever offsets the samples are read at, hence for every sample triple `(Y, U, V)` in
`0..255`, each of the three values `std::round(filtered_rgb[k] * 255.0f)` that
`processFrame` casts to `uint8_t` is an integer in `0..255`, so the cast leaves the value
as it is. -/
theorem processFrame_cast_in_range (gCurrentLUT : LutDataPointer) (y_ptr u_ptr v_ptr : Plane)
    (yIndex uvIndex : Int) :
    (0 ≤ (roundedRGB (filteredRGB gCurrentLUT y_ptr u_ptr v_ptr yIndex uvIndex)).1 ∧
      (roundedRGB (filteredRGB gCurrentLUT y_ptr u_ptr v_ptr yIndex uvIndex)).1 ≤ 255 ∧
      ((pixelRGB gCurrentLUT y_ptr u_ptr v_ptr yIndex uvIndex).1 : Int) =
        (roundedRGB (filteredRGB gCurrentLUT y_ptr u_ptr v_ptr yIndex uvIndex)).1) ∧
    (0 ≤ (roundedRGB (filteredRGB gCurrentLUT y_ptr u_ptr v_ptr yIndex uvIndex)).2.1 ∧
      (roundedRGB (filteredRGB gCurrentLUT y_ptr u_ptr v_ptr yIndex uvIndex)).2.1 ≤ 255 ∧
      ((pixelRGB gCurrentLUT y_ptr u_ptr v_ptr yIndex uvIndex).2.1 : Int) =
        (roundedRGB (filteredRGB gCurrentLUT y_ptr u_ptr v_ptr yIndex uvIndex)).2.1) ∧
    (0 ≤ (roundedRGB (filteredRGB gCurrentLUT y_ptr u_ptr v_ptr yIndex uvIndex)).2.2 ∧
      (roundedRGB (filteredRGB gCurrentLUT y_ptr u_ptr v_ptr yIndex uvIndex)).2.2 ≤ 255 ∧
      ((pixelRGB gCurrentLUT y_ptr u_ptr v_ptr yIndex uvIndex).2.2 : Int) =
        (roundedRGB (filteredRGB gCurrentLUT y_ptr u_ptr v_ptr yIndex uvIndex)).2.2) := by
  obtain ⟨h1, h2, h3⟩ := roundedRGB_range gCurrentLUT
    ((y_ptr yIndex % 256 : Nat) : ℚ) ((u_ptr uvIndex % 256 : Nat) : ℚ)
    ((v_ptr uvIndex % 256 : Nat) : ℚ)
  exact ⟨⟨h1.1, h1.2, toUint8_of_range h1.1 h1.2⟩, ⟨h2.1, h2.2, toUint8_of_range h2.1 h2.2⟩,
    ⟨h3.1, h3.2, toUint8_of_range h3.1 h3.2⟩⟩

end NativeLib
